import Mathlib

/-!
Verification development for the transform-and-load engine of
`scripts/initialize_data.py` (document-catalog → relational-store ETL job).

Shallow embedding conventions:
* Python `float` values are modelled as exact rationals (`ℚ`); the claims
  under study only compare values against exactly representable bounds
  (0, 10, 1800, 2100), so rounding of the binary format is below the
  granularity of every statement proved here.
* Python `datetime` values are modelled by `MDateTime`: local wall-clock
  microseconds since the epoch plus an optional tz offset in seconds
  (`none` = naive datetime).
* Dynamic (schema-less) document values are modelled by `DValue`.
* Fallible code paths return `Option` / an error-carrying result type
  instead of raising.
-/

set_option autoImplicit false

/-! ### Python string primitives (modelled on `List Char`) -/

/-- Whitespace recognised by Python `str.strip()` / `float()` (ASCII part). -/
def isPySpace (c : Char) : Bool :=
  c == ' ' || c == '\t' || c == '\n' || c == '\r' ||
    c == Char.ofNat 11 || c == Char.ofNat 12

/-- Drop chars satisfying `p` from both ends of a char list. -/
def stripWhile (p : Char → Bool) (cs : List Char) : List Char :=
  ((cs.dropWhile p).reverse.dropWhile p).reverse

/-- Python `str.strip()` (no argument form). -/
def pyStrip (s : String) : String :=
  String.mk (stripWhile isPySpace s.data)

/-- Python `str.strip(chars)`: strip any of the given chars from both ends. -/
def pyStripSet (s : String) (cs : List Char) : String :=
  String.mk (stripWhile (fun c => cs.contains c) s.data)

/-- Replace every occurrence of a (non-empty) pattern, scanning left to right:
Python `str.replace(pat, rep)`. The `fuel` argument bounds recursion by the
input length. -/
def pyReplaceAux (pat rep : List Char) : Nat → List Char → List Char
  | 0, cs => cs
  | _ + 1, [] => []
  | fuel + 1, c :: cs =>
      if pat.isPrefixOf (c :: cs) then
        rep ++ pyReplaceAux pat rep fuel (List.drop pat.length (c :: cs))
      else
        c :: pyReplaceAux pat rep fuel cs

/-- Python `str.replace` for non-empty patterns (the only use sites here
replace `","` and `"Z"`). -/
def pyReplace (s pat rep : String) : String :=
  if pat.data.isEmpty then s
  else String.mk (pyReplaceAux pat.data rep.data s.data.length s.data)

/-- Python slicing `s[:n]` (character based). -/
def pyTake (s : String) (n : Nat) : String :=
  String.mk (s.data.take n)

/-- Python `str.lower()` (ASCII part). -/
def pyLower (s : String) : String :=
  String.mk (s.data.map Char.toLower)

/-- Python `str.upper()` (ASCII part). -/
def pyUpper (s : String) : String :=
  String.mk (s.data.map Char.toUpper)

/-- Python `", ".join(parts)`. -/
def pyJoin (sep : String) (parts : List String) : String :=
  String.intercalate sep parts

/-! ### Python numeric literal parsing -/

/-- Decimal digit value of a char, if any. -/
def digitVal? (c : Char) : Option Nat :=
  if '0' ≤ c && c ≤ '9' then some (c.toNat - '0'.toNat) else none

/-- Read a maximal run of digits; returns (value, digit count, rest). -/
def readDigits : List Char → Nat → Nat → Nat × Nat × List Char
  | [], acc, k => (acc, k, [])
  | c :: cs, acc, k =>
      match digitVal? c with
      | some d => readDigits cs (10 * acc + d) (k + 1)
      | none => (acc, k, c :: cs)

/-- Optional sign; returns (sign, rest). -/
def readSign : List Char → Int × List Char
  | '+' :: cs => (1, cs)
  | '-' :: cs => (-1, cs)
  | cs => (1, cs)

/-- Core of Python `float(str)` on finite decimal forms
`[+-]digits[.digits][(e|E)[+-]digits]` (also `.5`, `5.`).
`inf` / `nan` / underscore-grouped literals are treated as parse failures;
no claim in this development touches them. -/
def pyFloatChars (cs : List Char) : Option ℚ :=
  let cs := stripWhile isPySpace cs
  let (sgn, cs) := readSign cs
  let (ip, ki, cs) := readDigits cs 0 0
  let (fp, kf, cs) :=
    match cs with
    | '.' :: rest => readDigits rest 0 0
    | _ => (0, 0, cs)
  if ki + kf == 0 then none
  else
    match cs with
    | [] => some ((sgn : ℚ) * ((ip : ℚ) + (fp : ℚ) / (10 : ℚ) ^ kf))
    | e :: rest =>
        if e == 'e' || e == 'E' then
          let (esgn, rest) := readSign rest
          let (ev, ke, rest) := readDigits rest 0 0
          if ke == 0 || !rest.isEmpty then none
          else some ((sgn : ℚ) * ((ip : ℚ) + (fp : ℚ) / (10 : ℚ) ^ kf) *
                      (10 : ℚ) ^ (esgn * (ev : Int)))
        else none

/-- Python `float(s)` (finite decimal forms). -/
def pyFloat (s : String) : Option ℚ :=
  pyFloatChars s.data

/-- Python `int(s)`: optional sign, decimal digits only. -/
def pyIntStr (s : String) : Option Int :=
  let cs := stripWhile isPySpace s.data
  let (sgn, cs) := readSign cs
  let (v, k, rest) := readDigits cs 0 0
  if k == 0 || !rest.isEmpty then none else some (sgn * (v : Int))

/-- Python `int(float)`: truncation toward zero. -/
def truncQ (q : ℚ) : Int :=
  Int.tdiv q.num (q.den : Int)

/-- Decimal representation of a rational that is exactly a decimal fraction,
mimicking Python `str(float)` for such values (e.g. `8.5`, `8.0`, `-0.25`).
Values that are not decimal fractions render as `"?"`; they cannot be
produced by the float parser and no claim depends on them. -/
def floatRepr (q : ℚ) : String :=
  match (List.range 31).find? (fun k => (q * (10 : ℚ) ^ k).den == 1) with
  | none => "?"
  | some k =>
      let k := max k 1
      let n := (q * (10 : ℚ) ^ k).num
      let ds := toString n.natAbs
      let ds := if ds.length < k + 1 then
          String.mk (List.replicate (k + 1 - ds.length) '0') ++ ds
        else ds
      let ip := pyTake ds (ds.length - k)
      let fp := String.mk (ds.data.drop (ds.length - k))
      (if n < 0 then "-" else "") ++ ip ++ "." ++ fp

/-! ### Datetime model -/

/-- Python `datetime` model: local wall-clock microseconds since the epoch
`1970-01-01T00:00:00` plus an optional utcoffset in seconds (`none` = naive). -/
structure MDateTime where
  micros : Int
  tz : Option Int
deriving DecidableEq, Repr

/-- Days from civil date (proleptic Gregorian, valid for year ≥ 1),
relative to 1970-01-01. -/
def civilToDays (y m d : Int) : Int :=
  let a := (14 - m).ediv 12
  let y' := y + 4800 - a
  let m' := m + 12 * a - 3
  d + (153 * m' + 2).ediv 5 + 365 * y' + y'.ediv 4 - y'.ediv 100 +
    y'.ediv 400 - 32045 - 2440588

/-- Gregorian leap year. -/
def isLeap (y : Int) : Bool :=
  (y % 4 == 0 && y % 100 != 0) || y % 400 == 0

/-- Days in a month. -/
def daysInMonth (y m : Int) : Int :=
  if m == 2 then (if isLeap y then 29 else 28)
  else if m == 4 || m == 6 || m == 9 || m == 11 then 30
  else 31

/-- Two decimal digits. -/
def two? (a b : Char) : Option Nat := do
  let x ← digitVal? a
  let y ← digitVal? b
  pure (10 * x + y)

/-- UTC offset suffix of an ISO string: empty, or `±HH:MM` (bounded below
one day, as CPython requires). Returns the offset in seconds. -/
def parseTzChars : List Char → Option (Option Int)
  | [] => some none
  | '+' :: h1 :: h2 :: ':' :: m1 :: m2 :: [] => do
      let th ← two? h1 h2
      let tm ← two? m1 m2
      if th ≤ 23 && tm ≤ 59 then pure (some ((th * 60 + tm) * 60 : Int)) else none
  | '-' :: h1 :: h2 :: ':' :: m1 :: m2 :: [] => do
      let th ← two? h1 h2
      let tm ← two? m1 m2
      if th ≤ 23 && tm ≤ 59 then pure (some (-((th * 60 + tm) * 60 : Int))) else none
  | _ => none

/-- Time-of-day part of an ISO string: `HH[:MM[:SS[.fff[fff]]]]` followed by
an optional offset. Returns (h, min, s, micros, tz). -/
def parseTimeChars (cs : List Char) : Option (Nat × Nat × Nat × Nat × Option Int) :=
  match cs with
  | h1 :: h2 :: rest => do
      let h ← two? h1 h2
      if h ≥ 24 then none else
      match rest with
      | ':' :: m1 :: m2 :: rest2 => do
          let mi ← two? m1 m2
          if mi ≥ 60 then none else
          match rest2 with
          | ':' :: s1 :: s2 :: rest3 => do
              let sec ← two? s1 s2
              if sec ≥ 60 then none else
              match rest3 with
              | '.' :: frac =>
                  let (fv, k, rest4) := readDigits frac 0 0
                  if k == 3 then do
                    let tz ← parseTzChars rest4
                    pure (h, mi, sec, fv * 1000, tz)
                  else if k == 6 then do
                    let tz ← parseTzChars rest4
                    pure (h, mi, sec, fv, tz)
                  else none
              | _ => do
                  let tz ← parseTzChars rest3
                  pure (h, mi, sec, 0, tz)
          | _ => do
              let tz ← parseTzChars rest2
              pure (h, mi, 0, 0, tz)
      | _ => do
          let tz ← parseTzChars rest
          pure (h, 0, 0, 0, tz)
  | _ => none

/-- CPython (pre-3.11) `datetime.fromisoformat`:
`YYYY-MM-DD[<sep>HH[:MM[:SS[.fff[fff]]]][±HH:MM]]`. -/
def fromisoformat (s : String) : Option MDateTime :=
  match s.data with
  | y1 :: y2 :: y3 :: y4 :: '-' :: mo1 :: mo2 :: '-' :: d1 :: d2 :: rest => do
      let yh ← two? y1 y2
      let yl ← two? y3 y4
      let y : Int := (yh * 100 + yl : Nat)
      let mo ← two? mo1 mo2
      let d ← two? d1 d2
      if y < 1 || mo < 1 || mo > 12 || d < 1 || (d : Int) > daysInMonth y (mo : Int) then
        none
      else
        match rest with
        | [] => pure ⟨civilToDays y (mo : Int) (d : Int) * 86400000000, none⟩
        | _sep :: timecs => do
            let (h, mi, sec, us, tz) ← parseTimeChars timecs
            pure ⟨(civilToDays y (mo : Int) (d : Int) * 86400 +
                    (h : Int) * 3600 + (mi : Int) * 60 + (sec : Int)) * 1000000 +
                    (us : Int), tz⟩
  | _ => none

/-- CPython `datetime.fromtimestamp(millis / 1000.0, tz=timezone.utc)`:
only instants whose civil year lies in 1..9999 are representable, anything
outside raises (mapped to `none` by the caller's `except`). Sub-millisecond
float rounding is below the model's granularity. -/
def fromtimestampUTC (millis : Int) : Option MDateTime :=
  if civilToDays 1 1 1 * 86400000 ≤ millis &&
      millis < civilToDays 10000 1 1 * 86400000 then
    some ⟨millis * 1000, some 0⟩
  else none

/-- Python `datetime.date()` of the wall-clock value, as days since epoch. -/
def MDateTime.dateDays (d : MDateTime) : Int :=
  d.micros.ediv 86400000000

/-- Python `==` on datetimes: naive compare by wall clock, aware compare by
instant, naive and aware are never equal. -/
def pyDtEq (a b : MDateTime) : Bool :=
  match a.tz, b.tz with
  | none, none => a.micros == b.micros
  | some x, some y => a.micros - x * 1000000 == b.micros - y * 1000000
  | _, _ => false

/-! ### Dynamic document values -/

/-- A schema-less source-document value (Mongo Extended JSON shapes
included): Python `None`, `bool`, `int`, `float`, `str`, `datetime`,
`list`, `dict`. -/
inductive DValue where
  | null : DValue
  | bool : Bool → DValue
  | int : Int → DValue
  | float : ℚ → DValue
  | str : String → DValue
  | dt : MDateTime → DValue
  | list : List DValue → DValue
  | dict : List (String × DValue) → DValue

/-- Membership-aware lookup: `value[k]` when `k in value` (first binding). -/
def dlookup (v : DValue) (k : String) : Option DValue :=
  match v with
  | .dict kvs => (kvs.find? (fun p => p.1 == k)).map (·.2)
  | _ => none

/-- Python `d.get(k)` on a value known to be a dict (absent key → `None`). -/
def dget (v : DValue) (k : String) : DValue :=
  (dlookup v k).getD .null

/-- Python truthiness. -/
def truthy : DValue → Bool
  | .null => false
  | .bool b => b
  | .int n => n != 0
  | .float q => q != 0
  | .str s => s != ""
  | .dt _ => true
  | .list xs => !xs.isEmpty
  | .dict kvs => !kvs.isEmpty

/-- Python `str(value)`. Container and datetime reprs are abbreviated to a
fixed non-empty placeholder (Python's exact repr text is irrelevant to every
claim; only emptiness/non-emptiness can matter and non-empty matches). -/
def pyStr : DValue → String
  | .null => "None"
  | .bool b => if b then "True" else "False"
  | .int n => toString n
  | .float q => floatRepr q
  | .str s => s
  | .dt _ => "datetime"
  | .list _ => "[...]"
  | .dict _ => "dict"

/-- Python `int(value)` applied to an arbitrary value (`None`/containers
raise, mapped to `none`). -/
def pyIntOf : DValue → Option Int
  | .str s => pyIntStr s
  | .int n => some n
  | .bool b => some (if b then 1 else 0)
  | .float q => some (truncQ q)
  | _ => none

/-- `get_nested(d, path)` from the source: walk a key path, `None` when a
step is not a dict or the key is absent. -/
def get_nested : DValue → List String → DValue
  | v, [] => v
  | v, k :: ks =>
      match dlookup v k with
      | some x => get_nested x ks
      | none => .null

/-- First key of `keys` present in the dict `v`, with its value
(mirrors `for key in (...): if key in value: ...`). -/
def firstLookup (v : DValue) (keys : List String) : Option DValue :=
  match keys with
  | [] => none
  | k :: ks =>
      match dlookup v k with
      | some x => some x
      | none => firstLookup v ks

/-! ### Value normalizers (§4.1), translated from the source -/

/-- `parse_mongo_date`: Mongo Extended JSON date variants → datetime with
UTC tzinfo attached to naive native values; total (`none` = absence). -/
def parse_mongo_date (v : DValue) : Option MDateTime :=
  match v with
  | .null => none
  | .dt d =>
      match d.tz with
      | some _ => some d
      | none => some { d with tz := some 0 }
  | .dict _ =>
      match dlookup v "$date" with
      | some (.str s) => fromisoformat (pyReplace s "Z" "+00:00")
      | some inner@(.dict _) =>
          match dlookup inner "$numberLong" with
          | some x =>
              match pyIntOf x with
              | some millis => fromtimestampUTC millis
              | none => none
          | none => none
      | _ => none
  | .str s => fromisoformat (pyReplace s "Z" "+00:00")
  | _ => none

/-- `as_int`: extended-JSON aware integer coercion (`int(float(str(x)))`
with comma→dot), total. -/
def as_int (v : DValue) : Option Int :=
  match v with
  | .null => none
  | .dict _ =>
      match firstLookup v ["$numberInt", "$numberLong", "$numberDouble"] with
      | some inner => (pyFloat (pyReplace (pyStr inner) "," ".")).map truncQ
      | none => none
  | .str s => (pyFloat (pyReplace s "," ".")).map truncQ
  | .int n => some n
  | .float q => some (truncQ q)
  | .bool b => some (if b then 1 else 0)
  | _ => none

/-- `as_float`: extended-JSON aware float coercion, total. -/
def as_float (v : DValue) : Option ℚ :=
  match v with
  | .null => none
  | .dict _ =>
      match firstLookup v ["$numberDouble", "$numberDecimal", "$numberInt", "$numberLong"] with
      | some inner => pyFloat (pyReplace (pyStr inner) "," ".")
      | none => none
  | .str s => pyFloat (pyReplace s "," ".")
  | .int n => some (n : ℚ)
  | .float q => some q
  | .bool b => some (if b then 1 else 0)
  | _ => none

/-- `normalize_text`: `str(value).strip()`, empty → absence-marker. -/
def normalize_text (v : DValue) : Option String :=
  match v with
  | .null => none
  | _ =>
      let s := pyStrip (pyStr v)
      if s == "" then none else some s

/-- `truncate_text`: silent hard cap to `n` characters. -/
def truncate_text (v : Option String) (n : Nat) : Option String :=
  v.map fun s => if s.length > n then pyTake s n else s

/-- `sanitize_year`: keep iff within [1800, 2100]. -/
def sanitize_year (v : Option Int) : Option Int :=
  v.bind fun y => if 1800 ≤ y ∧ y ≤ 2100 then some y else none

/-- `sanitize_age_rating`: keep iff within [0, 21]. -/
def sanitize_age_rating (v : Option Int) : Option Int :=
  v.bind fun a => if 0 ≤ a ∧ a ≤ 21 then some a else none

/-- Input domain of `sanitize_rating` as exercised by the program and the
spec: absent, numeric, or string (other object shapes would raise in
Python and are outside every claim). -/
inductive RatingIn where
  | null : RatingIn
  | num : ℚ → RatingIn
  | strv : String → RatingIn
deriving DecidableEq, Repr

/-- `sanitize_rating`: parse comma-decimal strings, keep iff within
[0.0, 10.0]. -/
def sanitize_rating : RatingIn → Option ℚ
  | .null => none
  | .num q => if 0 ≤ q ∧ q ≤ 10 then some q else none
  | .strv s =>
      match pyFloat (pyReplace s "," ".") with
      | none => none
      | some q => if 0 ≤ q ∧ q ≤ 10 then some q else none

/-- Lift the `Optional[float]` produced by `as_float` into the
`sanitize_rating` domain. -/
def ratingIn (v : Option ℚ) : RatingIn :=
  match v with
  | none => .null
  | some q => .num q

/-! ### Relational rows (target entities, §3) -/

/-- `people` row. Dates are stored as days since the epoch (`DATE` column). -/
structure PersonRow where
  id : Nat
  name : String
  en_name : Option String
  birth_date : Option Int
  death_date : Option Int
  birth_place : Option String
  photo_url : Option String
deriving DecidableEq, Repr

/-- `movies` row (all scalar columns written by `insert_movie_core`). -/
structure MovieRow where
  id : Int
  title : String
  alternative_name : Option String
  en_name : Option String
  description : Option String
  age_rating : Option Int
  movie_length : Option Int
  slogan : Option String
  mtype : String
  year : Option Int
  premiere_world : Option Int
  premiere_russia : Option Int
  rating_kp : Option ℚ
  rating_imdb : Option ℚ
  rating_film_critics : Option ℚ
  rating_russian_film_critics : Option ℚ
  votes_kp : Option Int
  votes_imdb : Option Int
  votes_film_critics : Option Int
  votes_russian_film_critics : Option Int
  budget_value : Option Int
  budget_currency : Option String
  fees_world_value : Option Int
  fees_world_currency : Option String
  fees_russia_value : Option Int
  fees_russia_currency : Option String
  fees_usa_value : Option Int
  fees_usa_currency : Option String
  poster_url : Option String
  poster_preview_url : Option String
  backdrop_url : Option String
  backdrop_preview_url : Option String
  external_id_imdb : Option String
  external_id_tmdb : Option Int
  external_id_kphd : Option String
deriving DecidableEq, Repr

/-- `movie_people` association row. -/
structure MPRow where
  movie_id : Int
  person_id : Nat
  role_id : Option Nat
  character_name : Option String
  order_index : Nat
deriving DecidableEq, Repr

/-- `movie_facts` row. -/
structure FactRow where
  movie_id : Int
  fact_text : String
  fact_type : String
  is_spoiler : Bool
deriving DecidableEq, Repr

/-- `movie_videos` row. -/
structure VideoRow where
  movie_id : Int
  video_url : String
  video_name : Option String
  video_site : Option String
  video_type : Option String
deriving DecidableEq, Repr

/-- `distributors` row. -/
structure DistributorRow where
  id : Nat
  name : String
  release_name : Option String
deriving DecidableEq, Repr

/-- `movie_distributors` association row. -/
structure MDRow where
  movie_id : Int
  distributor_id : Nat
  distribution_type : String
  release_date : Option Int
deriving DecidableEq, Repr

/-- `seasons` row. -/
structure SeasonRow where
  id : Nat
  movie_id : Int
  season_number : Int
  episodes_count : Option Int
  air_date : Option Int
  poster_url : Option String
  description : Option String
deriving DecidableEq, Repr

/-- `episodes` row. -/
structure EpisodeRow where
  season_id : Nat
  episode_number : Int
  title : Option String
  en_title : Option String
  synopsis : Option String
  air_date : Option Int
  runtime : Option Int
  still_url : Option String
  still_preview_url : Option String
deriving DecidableEq, Repr

/-- The relational store. Serial-id sequences are per table, as in
PostgreSQL. This is the part of the state restored by a savepoint
rollback. -/
structure Db where
  countries : List (Nat × String)
  genres : List (Nat × String)
  roles : List (Nat × String)
  people : List PersonRow
  movies : List MovieRow
  movie_countries : List (Int × Option Nat)
  movie_genres : List (Int × Option Nat)
  movie_people : List MPRow
  movie_facts : List FactRow
  movie_videos : List VideoRow
  distributors : List DistributorRow
  movie_distributors : List MDRow
  seasons : List SeasonRow
  episodes : List EpisodeRow
  nextCountryId : Nat
  nextGenreId : Nat
  nextPersonId : Nat
  nextDistributorId : Nat
  nextMovieId : Nat
  nextSeasonId : Nat
deriving DecidableEq, Repr

/-- The `PgRepo.stats` counters. -/
structure Stats where
  people_inserted : Nat
  people_updated : Nat
  movies_inserted : Nat
  movies_updated : Nat
  seasons_inserted : Nat
  seasons_updated : Nat
  countries_created : Nat
  genres_created : Nat
  distributors_created : Nat
  movie_countries_linked : Nat
  movie_genres_linked : Nat
  movie_people_linked : Nat
  movie_facts_inserted : Nat
  movie_videos_inserted : Nat
deriving DecidableEq, Repr

/-- Full repository state: the store plus the in-process caches and
counters of `PgRepo` (Python memory — NOT restored by a rollback) and a
running statement counter used to address the failure oracle. -/
structure PgState where
  db : Db
  cacheCountries : List (String × Nat)
  cacheGenres : List (String × Nat)
  cacheRoles : List (String × Nat)
  cacheDistributors : List (String × Nat)
  cachePersons : List ((String × Option String) × Nat)
  stats : Stats
  ctr : Nat
deriving DecidableEq, Repr

/-! ### The repository monad: explicit state plus statement-failure oracle -/

/-- Result of running a write sequence: success with a value, or a raised
exception. The state is carried in both cases — Python-side memory
(caches, stats) mutated before the raise persists. -/
inductive DocRes (α : Type) where
  | ok : α → PgState → DocRes α
  | err : PgState → DocRes α
deriving Repr, DecidableEq

/-- Repository computations: the oracle `o : Nat → Bool` tells, per
database-statement sequence number, whether the store raises on that
statement (modelling constraint violations, I/O errors, …). -/
def PgM (α : Type) : Type := (Nat → Bool) → PgState → DocRes α

instance : Monad PgM where
  pure a := fun _ s => .ok a s
  bind m f := fun o s =>
    match m o s with
    | .ok a s' => f a o s'
    | .err s' => .err s'

/-- Read Python-side state (no database statement). -/
def mread {α : Type} (f : PgState → α) : PgM α := fun _ s => .ok (f s) s

/-- Mutate Python-side memory (caches/stats — no database statement,
cannot fail). -/
def mmodify (f : PgState → PgState) : PgM Unit := fun _ s => .ok () (f s)

/-- Execute one database statement: the oracle decides whether it raises;
a raised statement has no effect on the store. -/
def dbstep {α : Type} (q : PgState → α × PgState) : PgM α := fun o s =>
  if o s.ctr then .err { s with ctr := s.ctr + 1 }
  else
    let r := q { s with ctr := s.ctr + 1 }
    .ok r.1 r.2

/-- A raised Python exception outside any database statement
(e.g. `.get` on a non-dict). -/
def mfail {α : Type} : PgM α := fun _ s => .err s

/-- `try: … except: …` around a computation, yielding `none` on a raise. -/
def mattempt {α : Type} (m : PgM α) : PgM (Option α) := fun o s =>
  match m o s with
  | .ok a s' => .ok (some a) s'
  | .err s' => .ok none s'

/-- Association-list lookup by string key. -/
def alookup {β : Type} (l : List (String × β)) (k : String) : Option β :=
  (l.find? (fun p => p.1 == k)).map (·.2)

/-- Person-cache lookup by `(name, en_name)`. -/
def plookup (l : List ((String × Option String) × Nat)) (k : String × Option String) :
    Option Nat :=
  (l.find? (fun p => p.1.1 == k.1 && p.1.2 == k.2)).map (·.2)

/-- Character-count truncation of a plain string. -/
def truncStr (s : String) (n : Nat) : String :=
  if s.length > n then pyTake s n else s

/-! ### Entity upsert resolvers (§4.2), translated from the source -/

/-- Shared insert path of `get_or_create_country`
(`INSERT INTO countries(name) VALUES (%s) RETURNING id`). -/
def createCountry (name : String) : PgM (Option Nat) := do
  let cid ← dbstep (fun s =>
    (s.db.nextCountryId,
      { s with db := { s.db with
          countries := s.db.countries ++ [(s.db.nextCountryId, name)],
          nextCountryId := s.db.nextCountryId + 1 } }))
  mmodify (fun s => { s with
    cacheCountries := (name, cid) :: s.cacheCountries,
    stats := { s.stats with countries_created := s.stats.countries_created + 1 } })
  pure (some cid)

/-- `get_or_create_country`: cache → SELECT by name → INSERT. -/
def get_or_create_country (name : String) : PgM (Option Nat) :=
  let name := truncStr (pyStrip name) 100
  if name == "" then pure none
  else do
    let cached ← mread (fun s => alookup s.cacheCountries name)
    match cached with
    | some cid => pure (some cid)
    | none => do
        let found ← dbstep (fun s =>
          ((s.db.countries.find? (fun p => p.2 == name)).map (·.1), s))
        match found with
        | some cid =>
            if cid != 0 then do
              mmodify (fun s => { s with cacheCountries := (name, cid) :: s.cacheCountries })
              pure (some cid)
            else createCountry name
        | none => createCountry name

/-- Shared insert path of `get_or_create_genre`. -/
def createGenre (name : String) : PgM (Option Nat) := do
  let gid ← dbstep (fun s =>
    (s.db.nextGenreId,
      { s with db := { s.db with
          genres := s.db.genres ++ [(s.db.nextGenreId, name)],
          nextGenreId := s.db.nextGenreId + 1 } }))
  mmodify (fun s => { s with
    cacheGenres := (name, gid) :: s.cacheGenres,
    stats := { s.stats with genres_created := s.stats.genres_created + 1 } })
  pure (some gid)

/-- `get_or_create_genre`: cache → SELECT by name → INSERT. -/
def get_or_create_genre (name : String) : PgM (Option Nat) :=
  let name := truncStr (pyStrip name) 100
  if name == "" then pure none
  else do
    let cached ← mread (fun s => alookup s.cacheGenres name)
    match cached with
    | some gid => pure (some gid)
    | none => do
        let found ← dbstep (fun s =>
          ((s.db.genres.find? (fun p => p.2 == name)).map (·.1), s))
        match found with
        | some gid =>
            if gid != 0 then do
              mmodify (fun s => { s with cacheGenres := (name, gid) :: s.cacheGenres })
              pure (some gid)
            else createGenre name
        | none => createGenre name

/-- `get_role_id`: roles are pre-seeded; cache → SELECT, never inserts. -/
def get_role_id (role_name : String) : PgM (Option Nat) :=
  if role_name == "" then pure none
  else do
    let cached ← mread (fun s => alookup s.cacheRoles role_name)
    match cached with
    | some rid => pure (some rid)
    | none => do
        let found ← dbstep (fun s =>
          ((s.db.roles.find? (fun p => p.2 == role_name)).map (·.1), s))
        match found with
        | some rid => do
            if rid != 0 then
              mmodify (fun s => { s with cacheRoles := (role_name, rid) :: s.cacheRoles })
            else pure ()
            pure (some rid)
        | none => pure none

/-- Derived person name: local name, fallback to `enName`, capped at 200. -/
def personName? (p : DValue) : Option String :=
  truncate_text ((normalize_text (dget p "name")) <|> (normalize_text (dget p "enName"))) 200

/-- Derived person english name, capped at 200. -/
def personEnName (p : DValue) : Option String :=
  truncate_text (normalize_text (dget p "enName")) 200

/-- Derived `birth_place`: join `value` fields of the `birthPlace` dict
list with `", "`, strip stray separators, cap at 200. -/
def birthPlaceOf (p : DValue) : Option String :=
  let bl := dget p "birthPlace"
  let bl := if truthy bl then bl else .list []
  match bl with
  | .list xs =>
      let parts := xs.filterMap (fun item =>
        match item with
        | .dict _ => some ((normalize_text (dget item "value")).getD "")
        | _ => none)
      let joined := pyStripSet (pyJoin ", " parts) [',', ' ']
      if joined == "" then none else truncate_text (some joined) 200
  | _ => none

/-- `upsert_person`: natural key `(name, en_name)`; cache → SELECT →
UPDATE with `COALESCE(incoming, stored)` on each mutable column, or
INSERT. Returns the person id, `none` when no name can be derived. -/
def upsert_person (p : DValue) : PgM (Option Nat) :=
  match p with
  | .dict _ =>
      match personName? p with
      | none => pure none
      | some name =>
          let en_name := personEnName p
          let photo_url := normalize_text (dget p "photo")
          let birth_date := (parse_mongo_date (dget p "birthday")).map MDateTime.dateDays
          let death_date := (parse_mongo_date (dget p "death")).map MDateTime.dateDays
          let birth_place := birthPlaceOf p
          do
            let cached ← mread (fun s => plookup s.cachePersons (name, en_name))
            match cached with
            | some pid => pure (some pid)
            | none => do
                let found ← dbstep (fun s =>
                  (s.db.people.find? (fun r =>
                    r.name == name && r.en_name.getD "" == en_name.getD ""), s))
                match found with
                | some row => do
                    dbstep (fun s => ((), { s with db := { s.db with
                      people := s.db.people.map (fun r =>
                        if r.id == row.id then
                          { r with
                            photo_url := photo_url <|> r.photo_url,
                            birth_date := birth_date <|> r.birth_date,
                            death_date := death_date <|> r.death_date,
                            birth_place := birth_place <|> r.birth_place }
                        else r) } }))
                    mmodify (fun s => { s with
                      cachePersons := ((name, en_name), row.id) :: s.cachePersons,
                      stats := { s.stats with people_updated := s.stats.people_updated + 1 } })
                    pure (some row.id)
                | none => do
                    let pid ← dbstep (fun s =>
                      (s.db.nextPersonId,
                        { s with db := { s.db with
                            people := s.db.people ++
                              [⟨s.db.nextPersonId, name, en_name, birth_date,
                                death_date, birth_place, photo_url⟩],
                            nextPersonId := s.db.nextPersonId + 1 } }))
                    mmodify (fun s => { s with
                      cachePersons := ((name, en_name), pid) :: s.cachePersons,
                      stats := { s.stats with people_inserted := s.stats.people_inserted + 1 } })
                    pure (some pid)
  | _ => mfail

/-- `upsert_distributor`: natural key `(name, release_name)`; absent name
⇒ no distributor at all. -/
def upsert_distributor (name : Option String) (release_name : Option String) :
    PgM (Option Nat) :=
  match name with
  | none => pure none
  | some n =>
      if n == "" then pure none
      else
        let n := truncStr n 200
        let release_name := match release_name with
          | some r => if r == "" then none else some (truncStr r 200)
          | none => none
        let cache_key := n ++ ":" ++ release_name.getD ""
        do
          let cached ← mread (fun s => alookup s.cacheDistributors cache_key)
          match cached with
          | some did => pure (some did)
          | none => do
              let found ← dbstep (fun s =>
                (s.db.distributors.find? (fun r =>
                  r.name == n && r.release_name.getD "" == release_name.getD ""), s))
              match found with
              | some row => do
                  mmodify (fun s =>
                    { s with cacheDistributors := (cache_key, row.id) :: s.cacheDistributors })
                  pure (some row.id)
              | none => do
                  let did ← dbstep (fun s =>
                    (s.db.nextDistributorId,
                      { s with db := { s.db with
                          distributors := s.db.distributors ++
                            [⟨s.db.nextDistributorId, n, release_name⟩],
                          nextDistributorId := s.db.nextDistributorId + 1 } }))
                  mmodify (fun s => { s with
                    cacheDistributors := (cache_key, did) :: s.cacheDistributors,
                    stats := { s.stats with
                      distributors_created := s.stats.distributors_created + 1 } })
                  pure (some did)

/-! ### Aggregate loader — movie (§4.3), translated from the source -/

/-- Title derivation: first non-empty (after trimming) of
`name`, `alternativeName`, `enName`. -/
def movieTitle? (doc : DValue) : Option String :=
  (normalize_text (dget doc "name")) <|>
    (normalize_text (dget doc "alternativeName")) <|>
      (normalize_text (dget doc "enName"))

/-- `y = movie.get(k) or {}` followed by attribute access on `y`:
a truthy non-dict raises at the access (`none`). -/
def subObj (v : DValue) (k : String) : Option DValue :=
  let x := dget v k
  if !truthy x then some (.dict [])
  else
    match x with
    | .dict _ => some x
    | _ => none

/-- All scalar columns of a movie row derived from the document
(`none` = a Python exception while reading a malformed sub-object). -/
def movieRowOf (doc : DValue) (title : String) (mid : Int) : Option MovieRow := do
  let rating ← subObj doc "rating"
  let votes ← subObj doc "votes"
  let budget ← subObj doc "budget"
  let fees ← subObj doc "fees"
  let fees_world ← subObj fees "world"
  let fees_russia ← subObj fees "russia"
  let fees_usa ← subObj fees "usa"
  let poster ← subObj doc "poster"
  let backdrop ← subObj doc "backdrop"
  let external ← subObj doc "externalId"
  pure
    { id := mid
      title := truncStr title 500
      alternative_name := truncate_text (normalize_text (dget doc "alternativeName")) 500
      en_name := truncate_text (normalize_text (dget doc "enName")) 500
      description := normalize_text (dget doc "description")
      age_rating := sanitize_age_rating (as_int (dget doc "ageRating"))
      movie_length := as_int (dget doc "movieLength")
      slogan := normalize_text (dget doc "slogan")
      mtype := truncStr ((normalize_text (dget doc "type")).getD "movie") 50
      year := sanitize_year (as_int (dget doc "year"))
      premiere_world :=
        (parse_mongo_date (get_nested doc ["premiere", "world"])).map MDateTime.dateDays
      premiere_russia :=
        (parse_mongo_date (get_nested doc ["premiere", "russia"])).map MDateTime.dateDays
      rating_kp := sanitize_rating (ratingIn (as_float (dget rating "kp")))
      rating_imdb := sanitize_rating (ratingIn (as_float (dget rating "imdb")))
      rating_film_critics := sanitize_rating (ratingIn (as_float (dget rating "filmCritics")))
      rating_russian_film_critics :=
        sanitize_rating (ratingIn (as_float (dget rating "russianFilmCritics")))
      votes_kp := as_int (dget votes "kp")
      votes_imdb := as_int (dget votes "imdb")
      votes_film_critics := as_int (dget votes "filmCritics")
      votes_russian_film_critics := as_int (dget votes "russianFilmCritics")
      budget_value := as_int (dget budget "value")
      budget_currency := truncate_text (normalize_text (dget budget "currency")) 10
      fees_world_value := as_int (dget fees_world "value")
      fees_world_currency := truncate_text (normalize_text (dget fees_world "currency")) 10
      fees_russia_value := as_int (dget fees_russia "value")
      fees_russia_currency := truncate_text (normalize_text (dget fees_russia "currency")) 10
      fees_usa_value := as_int (dget fees_usa "value")
      fees_usa_currency := truncate_text (normalize_text (dget fees_usa "currency")) 10
      poster_url := normalize_text (dget poster "url")
      poster_preview_url := normalize_text (dget poster "previewUrl")
      backdrop_url := normalize_text (dget backdrop "url")
      backdrop_preview_url := normalize_text (dget backdrop "previewUrl")
      external_id_imdb := truncate_text (normalize_text (dget external "imdb")) 20
      external_id_tmdb := as_int (dget external "tmdb")
      external_id_kphd := truncate_text (normalize_text (dget external "kpHD")) 50 }

/-- `INSERT … ON CONFLICT (id) DO UPDATE`: replace every scalar column of
the row with the given id, or append. -/
def upsertMovie (db : Db) (row : MovieRow) : Db :=
  if db.movies.any (fun r => r.id == row.id) then
    { db with movies := db.movies.map (fun r => if r.id == row.id then row else r) }
  else
    { db with movies := db.movies ++ [row] }

/-- `insert_movie_core`: derive title (skip when absent), then upsert by
explicit external id or plain insert with a generated id. -/
def insert_movie_core (doc : DValue) : PgM (Option Int) :=
  match doc with
  | .dict _ =>
      let explicit_id := as_int (dget doc "id")
      match movieTitle? doc with
      | none => pure none
      | some title =>
          match explicit_id with
          | some eid =>
              match movieRowOf doc title eid with
              | none => mfail
              | some row => do
                  dbstep (fun s => ((), { s with db := upsertMovie s.db row }))
                  if eid != 0 then
                    mmodify (fun s => { s with stats :=
                      { s.stats with movies_updated := s.stats.movies_updated + 1 } })
                  else pure ()
                  pure (some eid)
          | none =>
              match movieRowOf doc title 0 with
              | none => mfail
              | some row0 => do
                  let mid ← dbstep (fun s =>
                    ((s.db.nextMovieId : Int),
                      { s with db := { s.db with
                          movies := s.db.movies ++ [{ row0 with id := (s.db.nextMovieId : Int) }],
                          nextMovieId := s.db.nextMovieId + 1 } }))
                  if mid != 0 then
                    mmodify (fun s => { s with stats :=
                      { s.stats with movies_inserted := s.stats.movies_inserted + 1 } })
                  else pure ()
                  pure (some mid)
  | _ => mfail

/-- `ON CONFLICT DO NOTHING` bulk insert of association pairs (unique on
the full pair, §6). -/
def addPairs (t : List (Int × Option Nat)) (ps : List (Int × Option Nat)) :
    List (Int × Option Nat) :=
  ps.foldl (fun t p => if t.contains p then t else t ++ [p]) t

/-- Resolve each country name and collect `(movie_id, country_id)` pairs
(in order, skipping falsy names). -/
def countryPairs (movie_id : Int) : List String → PgM (List (Int × Option Nat))
  | [] => pure []
  | n :: ns =>
      if n == "" then countryPairs movie_id ns
      else do
        let cid ← get_or_create_country n
        let rest ← countryPairs movie_id ns
        pure ((movie_id, cid) :: rest)

/-- `link_movie_countries`. -/
def link_movie_countries (movie_id : Int) (names : List String) : PgM Unit :=
  if names.isEmpty then pure ()
  else do
    let pairs ← countryPairs movie_id names
    if pairs.isEmpty then pure ()
    else do
      dbstep (fun s => ((), { s with db :=
        { s.db with movie_countries := addPairs s.db.movie_countries pairs } }))
      mmodify (fun s => { s with stats := { s.stats with
        movie_countries_linked := s.stats.movie_countries_linked + pairs.length } })

/-- Resolve each genre name and collect `(movie_id, genre_id)` pairs. -/
def genrePairs (movie_id : Int) : List String → PgM (List (Int × Option Nat))
  | [] => pure []
  | n :: ns =>
      if n == "" then genrePairs movie_id ns
      else do
        let gid ← get_or_create_genre n
        let rest ← genrePairs movie_id ns
        pure ((movie_id, gid) :: rest)

/-- `link_movie_genres`. -/
def link_movie_genres (movie_id : Int) (names : List String) : PgM Unit :=
  if names.isEmpty then pure ()
  else do
    let pairs ← genrePairs movie_id names
    if pairs.isEmpty then pure ()
    else do
      dbstep (fun s => ((), { s with db :=
        { s.db with movie_genres := addPairs s.db.movie_genres pairs } }))
      mmodify (fun s => { s with stats := { s.stats with
        movie_genres_linked := s.stats.movie_genres_linked + pairs.length } })

/-- The fixed profession-synonym table of `insert_movie_people`. -/
def roleMap : List (String × String) :=
  [("actor", "actor"), ("director", "director"), ("producer", "producer"),
   ("writer", "writer"), ("composer", "composer"),
   ("operator", "cinematographer"), ("cinematographer", "cinematographer"),
   ("editor", "editor"), ("production designer", "production_designer"),
   ("designer", "production_designer")]

/-- Dedup key of a `movie_people` row (also its uniqueness constraint per
§6: duplicate-link inserts are no-ops). -/
def mpKey (r : MPRow) : Int × Nat × Option Nat × Option String :=
  (r.movie_id, r.person_id, r.role_id, r.character_name)

/-- `ON CONFLICT DO NOTHING` insert of one `movie_people` row. -/
def addMPRow (t : List MPRow) (r : MPRow) : List MPRow :=
  if t.any (fun x => mpKey x == mpKey r) then t else t ++ [r]

/-- Row-building loop of `insert_movie_people`: 1-based `order_index`
counts every person reference (including ones skipped later), rows are
deduplicated by `(person_id, role_id, character_name)` keeping the first. -/
def movie_people_rows (movie_id : Int) :
    List DValue → Nat → List (Nat × Option Nat × Option String) → List MPRow →
      PgM (List MPRow)
  | [], _, _, acc => pure acc.reverse
  | p :: ps, idx, seen, acc => do
      let pid? ← upsert_person p
      match pid? with
      | none => movie_people_rows movie_id ps (idx + 1) seen acc
      | some pid =>
          if pid == 0 then movie_people_rows movie_id ps (idx + 1) seen acc
          else
            let role_key := pyLower ((normalize_text (dget p "enProfession")).getD "")
            let role_name := alookup roleMap role_key
            do
              let role_id ← match role_name with
                | some rn => get_role_id rn
                | none => pure none
              let character_name := truncate_text (normalize_text (dget p "description")) 200
              let key := (pid, role_id, character_name)
              if seen.contains key then
                movie_people_rows movie_id ps (idx + 1) seen acc
              else
                movie_people_rows movie_id ps (idx + 1) (key :: seen)
                  (⟨movie_id, pid, role_id, character_name, idx + 1⟩ :: acc)

/-- Per-row fallback loop of `insert_movie_people`: retry each row alone,
count the ones that went through, swallow row-level errors. -/
def mpPerRow : List MPRow → Nat → PgM Nat
  | [], linked => pure linked
  | r :: rs, linked => do
      let res ← mattempt (dbstep (fun s => ((), { s with db :=
        { s.db with movie_people := addMPRow s.db.movie_people r } })))
      match res with
      | some _ => mpPerRow rs (linked + 1)
      | none => mpPerRow rs linked

/-- Bulk insert of `movie_people` rows with degrade-to-per-row fallback on
a bulk failure. -/
def mpBulkOrFallback (rows : List MPRow) : PgM Unit := do
  let r ← mattempt (dbstep (fun s => ((), { s with db :=
    { s.db with movie_people := rows.foldl addMPRow s.db.movie_people } })))
  match r with
  | some _ =>
      mmodify (fun s => { s with stats := { s.stats with
        movie_people_linked := s.stats.movie_people_linked + rows.length } })
  | none => do
      let linked ← mpPerRow rows 0
      mmodify (fun s => { s with stats := { s.stats with
        movie_people_linked := s.stats.movie_people_linked + linked } })

/-- `insert_movie_people`. -/
def insert_movie_people (movie_id : Int) (persons : List DValue) : PgM Unit :=
  if persons.isEmpty then pure ()
  else do
    let rows ← movie_people_rows movie_id persons 0 [] []
    if rows.isEmpty then pure ()
    else mpBulkOrFallback rows

/-- Fact rows of a movie: rows with empty text dropped, default type
`"FACT"`, type upper-cased; a non-dict entry raises (`none`). -/
def factRowsOf (movie_id : Int) : List DValue → Option (List FactRow)
  | [] => some []
  | f :: fs =>
      match f with
      | .dict _ =>
          let text := normalize_text (dget f "value")
          let ftype := normalize_text (dget f "type")
          let spoiler := truthy ((dlookup f "spoiler").getD (.bool false))
          match factRowsOf movie_id fs with
          | none => none
          | some rest =>
              match text with
              | some t => some (⟨movie_id, t, pyUpper (ftype.getD "FACT"), spoiler⟩ :: rest)
              | none => some rest
      | _ => none

/-- `ON CONFLICT DO NOTHING` insert of one fact row (natural content key). -/
def addFactRow (t : List FactRow) (r : FactRow) : List FactRow :=
  if t.contains r then t else t ++ [r]

/-- `insert_movie_facts` (argument is `movie_doc.get("facts") or []`). -/
def insert_movie_facts (movie_id : Int) (facts : DValue) : PgM Unit :=
  if !truthy facts then pure ()
  else
    match facts with
    | .list fs =>
        match factRowsOf movie_id fs with
        | none => mfail
        | some rows =>
            if rows.isEmpty then pure ()
            else do
              dbstep (fun s => ((), { s with db :=
                { s.db with movie_facts := rows.foldl addFactRow s.db.movie_facts } }))
              mmodify (fun s => { s with stats := { s.stats with
                movie_facts_inserted := s.stats.movie_facts_inserted + rows.length } })
    | _ => mfail

/-- Video rows: entries without a URL (or non-dict entries) are dropped,
type lower-cased. -/
def videoRowsOf (movie_id : Int) (vs : List DValue) : List VideoRow :=
  vs.filterMap (fun v =>
    match v with
    | .dict _ =>
        match normalize_text (dget v "url") with
        | none => none
        | some url =>
            some ⟨movie_id, url, normalize_text (dget v "name"),
                  normalize_text (dget v "site"),
                  (normalize_text (dget v "type")).map pyLower⟩
    | _ => none)

/-- `ON CONFLICT DO NOTHING` insert of one video row (keyed by URL). -/
def addVideoRow (t : List VideoRow) (r : VideoRow) : List VideoRow :=
  if t.any (fun x => x.movie_id == r.movie_id && x.video_url == r.video_url) then t
  else t ++ [r]

/-- `insert_movie_videos`. -/
def insert_movie_videos (movie_id : Int) (doc : DValue) : PgM Unit :=
  let videos := get_nested doc ["videos", "trailers"]
  let videos := if truthy videos then videos else .list []
  match videos with
  | .list vs =>
      if vs.isEmpty then pure ()
      else
        let rows := videoRowsOf movie_id vs
        if rows.isEmpty then pure ()
        else do
          dbstep (fun s => ((), { s with db :=
            { s.db with movie_videos := rows.foldl addVideoRow s.db.movie_videos } }))
          mmodify (fun s => { s with stats := { s.stats with
            movie_videos_inserted := s.stats.movie_videos_inserted + rows.length } })
  | _ => pure ()

/-- `ON CONFLICT DO NOTHING` insert of one `movie_distributors` row
(unique on `(movie_id, distributor_id)`, §6). -/
def addMDRow (t : List MDRow) (r : MDRow) : List MDRow :=
  if t.any (fun x => x.movie_id == r.movie_id && x.distributor_id == r.distributor_id)
  then t else t ++ [r]

/-- Distributor step of `process_movie_batch`: resolve by
`(distributor, distributorRelease)` and, if resolved, insert one
distribution row dated russia-premiere-else-world-premiere. -/
def link_distributor (movie_id : Int) (doc : DValue) : PgM Unit :=
  match subObj doc "distributors" with
  | none => mfail
  | some dd =>
      let d_name := normalize_text (dget dd "distributor")
      let d_release := normalize_text (dget dd "distributorRelease")
      do
        let did? ← upsert_distributor d_name d_release
        match did? with
        | some did =>
            if did != 0 then
              let release_dt :=
                (parse_mongo_date (get_nested doc ["premiere", "russia"])) <|>
                  (parse_mongo_date (get_nested doc ["premiere", "world"]))
              let row : MDRow := ⟨movie_id, did, "theatrical", release_dt.map MDateTime.dateDays⟩
              dbstep (fun s => ((), { s with db :=
                { s.db with movie_distributors := addMDRow s.db.movie_distributors row } }))
            else pure ()
        | none => pure ()

/-- Python iteration over a value (`for x in v`): lists yield elements,
strings yield 1-char strings, dicts yield their keys; other values raise. -/
def iterElems : DValue → Option (List DValue)
  | .list xs => some xs
  | .str s => some (s.data.map (fun c => DValue.str (String.mk [c])))
  | .dict kvs => some (kvs.map (fun p => DValue.str p.1))
  | _ => none

/-- `movie_doc.get(k) or []` followed by iteration. -/
def collOf (doc : DValue) (k : String) : Option (List DValue) :=
  let v := dget doc k
  let v := if truthy v then v else .list []
  iterElems v

/-- `[normalize_text(c.get(field)) for c in xs if isinstance(c, dict)]`. -/
def namesFromDicts (xs : List DValue) (field : String) : List (Option String) :=
  xs.filterMap (fun c =>
    match c with
    | .dict _ => some (normalize_text (dget c field))
    | _ => none)

/-- `[c for c in names if c]`. -/
def truthyStrs (xs : List (Option String)) : List String :=
  xs.filterMap (fun o =>
    match o with
    | some s => if s == "" then none else some s
    | none => none)

/-- The full per-document write sequence of `process_movie_batch`
(steps 2–7 of §4.3; the ES/Redis sink mirroring is a no-op here — both
clients are absent and their failures never reach this sequence).
Returns `true` when the movie counts as inserted, `false` on a
title-less (or falsy-id) skip. -/
def movieWriteSeq (doc : DValue) : PgM Bool := do
  let mid? ← insert_movie_core doc
  match mid? with
  | none => pure false
  | some mid =>
      if mid == 0 then pure false
      else
        match collOf doc "countries" with
        | none => mfail
        | some cs => do
            link_movie_countries mid (truthyStrs (namesFromDicts cs "name"))
            match collOf doc "genres" with
            | none => mfail
            | some gs => do
                link_movie_genres mid (truthyStrs (namesFromDicts gs "name"))
                let pv := dget doc "persons"
                let pv := if truthy pv then pv else .list []
                (match pv with
                 | .list ps => insert_movie_people mid ps
                 | _ => pure ())
                let fv := dget doc "facts"
                let fv := if truthy fv then fv else .list []
                insert_movie_facts mid fv
                insert_movie_videos mid doc
                link_distributor mid doc
                pure true

/-- `process_movie_batch`: per document, open a savepoint (snapshot of the
store), run the write sequence, on success release; on a raise, roll back
to the snapshot (Python-side caches/stats persist) and count the document
as skipped. Returns (inserted, skipped, final state). -/
def process_movie_batch (o : Nat → Bool) : List DValue → PgState → Nat × Nat × PgState
  | [], s => (0, 0, s)
  | d :: ds, s =>
      let snap := s.db
      match movieWriteSeq d o s with
      | .ok true s' =>
          let r := process_movie_batch o ds s'
          (r.1 + 1, r.2.1, r.2.2)
      | .ok false s' =>
          let r := process_movie_batch o ds s'
          (r.1, r.2.1 + 1, r.2.2)
      | .err s' =>
          let r := process_movie_batch o ds { s' with db := snap }
          (r.1, r.2.1 + 1, r.2.2)

/-- `process_people_batch`: the person stream analogue (savepoint per
document, no bulk path). Returns (inserted, skipped, final state). -/
def process_people_batch (o : Nat → Bool) : List DValue → PgState → Nat × Nat × PgState
  | [], s => (0, 0, s)
  | d :: ds, s =>
      let snap := s.db
      match upsert_person d o s with
      | .ok pid? s' =>
          let inc := match pid? with
            | some pid => if pid != 0 then 1 else 0
            | none => 0
          let r := process_people_batch o ds s'
          (r.1 + inc, r.2.1, r.2.2)
      | .err s' =>
          let r := process_people_batch o ds { s' with db := snap }
          (r.1, r.2.1 + 1, r.2.2)

/-! ### Aggregate loader — season/episode (§4.4) -/

/-- Python `x or default` on an optional int (`None` and `0` are falsy). -/
def pyOrInt (v : Option Int) (d : Int) : Int :=
  match v with
  | none => d
  | some 0 => d
  | some n => n

/-- Episode rows of a season document (a non-dict entry, or a truthy
non-dict `still`, raises → `none`). -/
def seasonEpisodeRows (sid : Nat) : List DValue → Option (List EpisodeRow)
  | [] => some []
  | ep :: eps =>
      match ep with
      | .dict _ =>
          match subObj ep "still" with
          | none => none
          | some still =>
              match seasonEpisodeRows sid eps with
              | none => none
              | some rest =>
                  some (⟨sid, pyOrInt (as_int (dget ep "number")) 0,
                    normalize_text (dget ep "name"),
                    normalize_text (dget ep "enName"),
                    normalize_text (dget ep "description"),
                    (parse_mongo_date (dget ep "airDate")).map MDateTime.dateDays,
                    as_int (dget ep "duration"),
                    normalize_text (dget still "url"),
                    normalize_text (dget still "previewUrl")⟩ :: rest)
      | _ => none

/-- Season upsert keyed by `(movie_id, season_number)`: on conflict
overwrite the mutable columns, keep the id; else insert with a fresh id. -/
def upsertSeasonRow (s : PgState) (mid : Int) (number : Int)
    (episodes_count : Option Int) (air_date : Option Int)
    (poster_url : Option String) (description : Option String) : Nat × PgState :=
  match s.db.seasons.find? (fun r => r.movie_id == mid && r.season_number == number) with
  | some old =>
      (old.id,
        { s with db := { s.db with seasons := s.db.seasons.map (fun r =>
            if r.movie_id == mid && r.season_number == number then
              { r with episodes_count := episodes_count, air_date := air_date,
                       poster_url := poster_url, description := description }
            else r) } })
  | none =>
      (s.db.nextSeasonId,
        { s with db := { s.db with
            seasons := s.db.seasons ++
              [⟨s.db.nextSeasonId, mid, number, episodes_count, air_date,
                poster_url, description⟩],
            nextSeasonId := s.db.nextSeasonId + 1 } })

/-- Episode upsert keyed by `(season_id, episode_number)`: on conflict
overwrite all mutable columns. -/
def upsertEpisode (t : List EpisodeRow) (r : EpisodeRow) : List EpisodeRow :=
  if t.any (fun x => x.season_id == r.season_id && x.episode_number == r.episode_number) then
    t.map (fun x =>
      if x.season_id == r.season_id && x.episode_number == r.episode_number then r else x)
  else t ++ [r]

/-- `upsert_season`: require the parent movie (falsy `movieId` or unknown
movie ⇒ skip with no write), default season number to 1 on falsy, upsert
the season row, then bulk-upsert its episodes. -/
def upsert_season (doc : DValue) : PgM (Option Nat) :=
  match doc with
  | .dict _ =>
      match as_int (dget doc "movieId") with
      | none => pure none
      | some mid =>
          if mid == 0 then pure none
          else do
            let exists_ ← dbstep (fun s => (s.db.movies.any (fun r => r.id == mid), s))
            if !exists_ then pure none
            else
              let number := pyOrInt (as_int (dget doc "number")) 1
              let episodes_count := as_int (dget doc "episodesCount")
              let air_date := (parse_mongo_date (dget doc "airDate")).map MDateTime.dateDays
              match subObj doc "poster" with
              | none => mfail
              | some poster =>
                  let poster_url := normalize_text (dget poster "url")
                  let description := normalize_text (dget doc "description")
                  do
                    let sid ← dbstep (fun s =>
                      upsertSeasonRow s mid number episodes_count air_date
                        poster_url description)
                    mmodify (fun s => { s with stats := { s.stats with
                      seasons_inserted := s.stats.seasons_inserted + 1 } })
                    let ev := dget doc "episodes"
                    let ev := if truthy ev then ev else .list []
                    match iterElems ev with
                    | none => mfail
                    | some eps =>
                        match seasonEpisodeRows sid eps with
                        | none => mfail
                        | some rows =>
                            if rows.isEmpty then pure (some sid)
                            else do
                              dbstep (fun s => ((), { s with db := { s.db with
                                episodes := rows.foldl upsertEpisode s.db.episodes } }))
                              pure (some sid)
  | _ => mfail

/-! ### Concrete run environments used by witnesses and counterexamples -/

/-- An empty store (sequences start at 1, as PostgreSQL serials do). -/
def emptyDb : Db :=
  ⟨[], [], [], [], [], [], [], [], [], [], [], [], [], [], 1, 1, 1, 1, 1, 1⟩

/-- Zeroed counters. -/
def emptyStats : Stats :=
  ⟨0, 0, 0, 0, 0, 0, 0, 0, 0, 0, 0, 0, 0, 0⟩

/-- A fresh run: empty store, empty caches, counter at 0. -/
def initState : PgState :=
  ⟨emptyDb, [], [], [], [], [], emptyStats, 0⟩

/-- The oracle of a run in which no statement fails. -/
def noFailO : Nat → Bool := fun _ => false

/-! ### Running lemmas for the repository monad -/

theorem pgm_bind_apply {α β : Type} (m : PgM α) (f : α → PgM β) (o : Nat → Bool)
    (s : PgState) :
    (m >>= f) o s =
      match m o s with
      | .ok a s' => f a o s'
      | .err s' => .err s' := rfl

theorem pgm_pure_apply {α : Type} (a : α) (o : Nat → Bool) (s : PgState) :
    (pure a : PgM α) o s = .ok a s := rfl

theorem mread_apply {α : Type} (f : PgState → α) (o : Nat → Bool) (s : PgState) :
    mread f o s = .ok (f s) s := rfl

theorem mmodify_apply (f : PgState → PgState) (o : Nat → Bool) (s : PgState) :
    mmodify f o s = .ok () (f s) := rfl

theorem mfail_apply {α : Type} (o : Nat → Bool) (s : PgState) :
    (mfail : PgM α) o s = .err s := rfl

theorem dbstep_apply {α : Type} (q : PgState → α × PgState) (o : Nat → Bool) (s : PgState) :
    dbstep q o s =
      if o s.ctr then .err { s with ctr := s.ctr + 1 }
      else .ok (q { s with ctr := s.ctr + 1 }).1 (q { s with ctr := s.ctr + 1 }).2 := rfl

theorem mattempt_apply {α : Type} (m : PgM α) (o : Nat → Bool) (s : PgState) :
    mattempt m o s =
      match m o s with
      | .ok a s' => .ok (some a) s'
      | .err s' => .ok none s' := rfl

/-! ### C5 — range sanitizers -/

/-- C5: `sanitize_year` keeps an integer year iff it lies in [1800, 2100]
and `sanitize_rating` keeps a numeric (or comma/dot numeric-string) rating
iff it lies in [0, 10]; the boundaries 1800, 2100, 0, 10 are accepted and
out-of-range values map to the absence-marker, never clamped. -/
theorem sanitize_range_bounds :
    (∀ y : Int, sanitize_year (some y) = if 1800 ≤ y ∧ y ≤ 2100 then some y else none) ∧
    sanitize_year none = none ∧
    (∀ q : ℚ, sanitize_rating (.num q) = if 0 ≤ q ∧ q ≤ 10 then some q else none) ∧
    (∀ (s : String) (q : ℚ), pyFloat (pyReplace s "," ".") = some q →
      sanitize_rating (.strv s) = if 0 ≤ q ∧ q ≤ 10 then some q else none) ∧
    sanitize_rating .null = none ∧
    sanitize_year (some 1800) = some 1800 ∧ sanitize_year (some 2100) = some 2100 ∧
    sanitize_rating (.num 0) = some 0 ∧ sanitize_rating (.num 10) = some 10 := by
  refine ⟨fun y => rfl, rfl, fun q => rfl, fun s q h => ?_, rfl, ?_, ?_, ?_, ?_⟩
  · simp [sanitize_rating, h]
  · decide
  · decide
  · decide
  · decide

/-- C5 witness: the comma-decimal string "8,5" is parsed and kept. -/
theorem sanitize_range_bounds_witness :
    sanitize_rating (.strv "8,5") = some (17 / 2 : ℚ) := by
  have h0 : pyReplace "8,5" "," "." = "8.5" := by decide
  have hq : pyFloat (pyReplace "8,5" "," ".") = some (17 / 2 : ℚ) := by
    rw [h0]
    simp +decide [pyFloat, pyFloatChars, stripWhile, readDigits, readSign,
      digitVal?, isPySpace]
    norm_num
  have h := sanitize_range_bounds.2.2.2.1 "8,5" (17 / 2 : ℚ) hq
  rw [h]
  norm_num

/-! ### C3 — date normalizer -/

/-- C3 counterexample: an ISO-8601 string without any offset is a
supported encoding, yet its parse carries NO UTC offset (a naive
datetime) and differs from the parse of the same instant with a `Z`
suffix — the claim's "equal result carrying an explicit UTC offset"
fails for the `without Z` case. -/
theorem parse_mongo_date_counterexample :
    parse_mongo_date (.str "2012-05-03T00:00:00") =
      some ⟨1336003200000000, none⟩ ∧
    parse_mongo_date (.str "2012-05-03T00:00:00Z") =
      some ⟨1336003200000000, some 0⟩ ∧
    parse_mongo_date (.str "2012-05-03T00:00:00") ≠
      parse_mongo_date (.str "2012-05-03T00:00:00Z") ∧
    (parse_mongo_date (.str "2012-05-03T00:00:00")).map MDateTime.tz = some none := by
  refine ⟨by decide, by decide, by decide, by decide⟩

/-- C3 (amended): `parse_mongo_date` is total by construction (every raise
inside it is caught and mapped to the absence-marker). A `Z`-suffixed or
explicit-offset ISO string, the `$date` wrapper around such a string, the
`$numberLong` epoch-millisecond wrapper, a naive native datetime of the
same instant, and an aware UTC native datetime all yield the one equal
result carrying explicit UTC. An ISO string *without* offset information
however yields a naive result (no UTC offset), an aware native datetime
keeps its original (possibly non-UTC) offset, and every unsupported shape
yields the absence-marker. -/
theorem parse_mongo_date_utc (sz sl : String) (millis : Int)
    (hz : fromisoformat (pyReplace sz "Z" "+00:00") = some ⟨millis * 1000, some 0⟩)
    (hl : pyIntStr sl = some millis)
    (hlo : civilToDays 1 1 1 * 86400000 ≤ millis)
    (hhi : millis < civilToDays 10000 1 1 * 86400000) :
    parse_mongo_date (.str sz) = some ⟨millis * 1000, some 0⟩ ∧
    parse_mongo_date (.dict [("$date", .str sz)]) = some ⟨millis * 1000, some 0⟩ ∧
    parse_mongo_date (.dict [("$date", .dict [("$numberLong", .str sl)])]) =
      some ⟨millis * 1000, some 0⟩ ∧
    parse_mongo_date (.dt ⟨millis * 1000, none⟩) = some ⟨millis * 1000, some 0⟩ ∧
    parse_mongo_date (.dt ⟨millis * 1000, some 0⟩) = some ⟨millis * 1000, some 0⟩ ∧
    (∀ (t : String) (m : Int),
      fromisoformat (pyReplace t "Z" "+00:00") = some ⟨m, none⟩ →
      parse_mongo_date (.str t) = some ⟨m, none⟩) ∧
    (∀ (m off : Int), parse_mongo_date (.dt ⟨m, some off⟩) = some ⟨m, some off⟩) ∧
    parse_mongo_date .null = none ∧
    (∀ b, parse_mongo_date (.bool b) = none) ∧
    (∀ n : Int, parse_mongo_date (.int n) = none) ∧
    (∀ q : ℚ, parse_mongo_date (.float q) = none) ∧
    (∀ xs, parse_mongo_date (.list xs) = none) ∧
    (∀ kvs, kvs.find? (fun p => p.1 == "$date") = none →
      parse_mongo_date (.dict kvs) = none) := by
  refine ⟨?_, ?_, ?_, rfl, rfl, fun t m h => ?_, fun m off => rfl, rfl,
    fun b => rfl, fun n => rfl, fun q => rfl, fun xs => rfl, fun kvs h => ?_⟩
  · simpa [parse_mongo_date] using hz
  · simpa [parse_mongo_date, dlookup] using hz
  · simp [parse_mongo_date, dlookup, pyIntOf, hl, fromtimestampUTC, hlo, hhi]
  · simpa [parse_mongo_date] using h
  · simp [parse_mongo_date, dlookup, h]

/-- C3 witness: the three UTC encodings of 2012-05-03T00:00:00Z agree. -/
theorem parse_mongo_date_utc_witness :
    parse_mongo_date (.dict [("$date", .dict [("$numberLong", .str "1336003200000")])]) =
      some ⟨1336003200000000, some 0⟩ :=
  (parse_mongo_date_utc "2012-05-03T00:00:00Z" "1336003200000" 1336003200000
    (by decide) (by decide) (by decide) (by decide)).2.2.1

/-! ### C2 — person update semantics -/

/-- Stored person with a non-null photo "a". -/
def c2State : PgState :=
  { initState with db := { emptyDb with
      people := [⟨1, "A", none, none, none, none, some "a"⟩], nextPersonId := 2 } }

/-- Incoming document for the same natural key with a differing photo "b". -/
def c2Doc : DValue := .dict [("name", .str "A"), ("photo", .str "b")]

/-- Outcome projection: id returned and the stored photo column afterwards. -/
def c2Result : Option (Option Nat × List (Option String)) :=
  match upsert_person c2Doc noFailO c2State with
  | .ok pid s' => some (pid, s'.db.people.map PersonRow.photo_url)
  | .err _ => none

/-- C2 counterexample: re-upserting person "A" with incoming photo "b"
OVERWRITES the existing non-null stored photo "a" — the code's
`COALESCE(incoming, stored)` lets a differing non-null incoming value win,
contradicting fill-if-null. -/
theorem upsert_person_overwrite_counterexample :
    c2Result = some (some 1, [some "b"]) ∧ some "b" ≠ some "a" := by
  refine ⟨by decide, by decide⟩

/-- C2 (amended): on a natural-key match, each mutable column is set to
`COALESCE(incoming, stored)`: a null incoming value never clears a stored
value, but a non-null incoming value always wins, even over a differing
non-null stored value. -/
theorem upsert_person_update_semantics (o : Nat → Bool) (s : PgState)
    (kvs : List (String × DValue)) (name : String) (row : PersonRow)
    (hname : personName? (.dict kvs) = some name)
    (hcache : plookup s.cachePersons (name, personEnName (.dict kvs)) = none)
    (hsel : o s.ctr = false)
    (hupd : o (s.ctr + 1) = false)
    (hfind : s.db.people.find? (fun r =>
        r.name == name &&
          r.en_name.getD "" == (personEnName (.dict kvs)).getD "") = some row) :
    ∃ s', upsert_person (.dict kvs) o s = .ok (some row.id) s' ∧
      s'.db.people = s.db.people.map (fun r =>
        if r.id == row.id then
          { r with
            photo_url := (normalize_text (dget (.dict kvs) "photo")) <|> r.photo_url,
            birth_date :=
              ((parse_mongo_date (dget (.dict kvs) "birthday")).map MDateTime.dateDays) <|>
                r.birth_date,
            death_date :=
              ((parse_mongo_date (dget (.dict kvs) "death")).map MDateTime.dateDays) <|>
                r.death_date,
            birth_place := (birthPlaceOf (.dict kvs)) <|> r.birth_place }
        else r) := by
  refine ⟨{ s with
      ctr := s.ctr + 1 + 1,
      db := { s.db with people := s.db.people.map (fun r =>
        if r.id == row.id then
          { r with
            photo_url := (normalize_text (dget (.dict kvs) "photo")) <|> r.photo_url,
            birth_date :=
              ((parse_mongo_date (dget (.dict kvs) "birthday")).map MDateTime.dateDays) <|>
                r.birth_date,
            death_date :=
              ((parse_mongo_date (dget (.dict kvs) "death")).map MDateTime.dateDays) <|>
                r.death_date,
            birth_place := (birthPlaceOf (.dict kvs)) <|> r.birth_place }
        else r) },
      cachePersons := ((name, personEnName (.dict kvs)), row.id) :: s.cachePersons,
      stats := { s.stats with people_updated := s.stats.people_updated + 1 } }, ?_, rfl⟩
  simp [upsert_person, hname, pgm_bind_apply, mread_apply, mmodify_apply,
    dbstep_apply, pgm_pure_apply, hcache, hsel, hupd, hfind]

/-- C2 amended-theorem witness at a concrete state and document. -/
theorem upsert_person_update_semantics_witness :
    ∃ s', upsert_person c2Doc noFailO c2State = .ok (some 1) s' ∧
      s'.db.people = c2State.db.people.map (fun r =>
        if r.id == 1 then
          { r with
            photo_url := (normalize_text (dget c2Doc "photo")) <|> r.photo_url,
            birth_date :=
              ((parse_mongo_date (dget c2Doc "birthday")).map MDateTime.dateDays) <|>
                r.birth_date,
            death_date :=
              ((parse_mongo_date (dget c2Doc "death")).map MDateTime.dateDays) <|>
                r.death_date,
            birth_place := (birthPlaceOf c2Doc) <|> r.birth_place }
        else r) := by
  have h := upsert_person_update_semantics noFailO c2State
    [("name", .str "A"), ("photo", .str "b")] "A"
    ⟨1, "A", none, none, none, none, some "a"⟩
    (by decide) (by decide) (by decide) (by decide) (by decide)
  exact h

/-! ### C8 — title derivation and skip -/

theorem upsertMovie_self_mem (db : Db) (row : MovieRow) :
    row ∈ (upsertMovie db row).movies := by
  unfold upsertMovie
  split
  · next h =>
      simp only [List.any_eq_true] at h
      obtain ⟨r₀, hr₀, hid⟩ := h
      simp only [List.mem_map]
      exact ⟨r₀, hr₀, by simp [hid]⟩
  · simp

theorem movieRowOf_fields (doc : DValue) (t : String) (mid : Int) (r : MovieRow)
    (h : movieRowOf doc t mid = some r) :
    r.title = truncStr t 500 ∧ r.id = mid := by
  simp only [movieRowOf, Option.bind_eq_bind, Option.bind_eq_some, Option.pure_def,
    Option.some.injEq] at h
  obtain ⟨a1, -, a2, -, a3, -, a4, -, a5, -, a6, -, a7, -, a8, -, a9, -, a10, -, hr⟩ := h
  subst hr
  exact ⟨rfl, rfl⟩

theorem insert_movie_core_skip (o : Nat → Bool) (s : PgState)
    (kvs : List (String × DValue)) (h : movieTitle? (.dict kvs) = none) :
    insert_movie_core (.dict kvs) o s = .ok none s := by
  simp [insert_movie_core, h, pgm_pure_apply]

theorem insert_movie_core_ok_mem (o : Nat → Bool) (s : PgState)
    (kvs : List (String × DValue)) (mid : Int) (s' : PgState)
    (h : insert_movie_core (.dict kvs) o s = .ok (some mid) s') :
    ∃ t r, movieTitle? (.dict kvs) = some t ∧ r ∈ s'.db.movies ∧ r.id = mid ∧
      r.title = truncStr t 500 := by
  simp only [insert_movie_core] at h
  cases htitle : movieTitle? (.dict kvs) with
  | none =>
      simp only [htitle] at h
      simp [pgm_pure_apply] at h
  | some t =>
      simp only [htitle] at h
      cases hexp : as_int (dget (.dict kvs) "id") with
      | some eid =>
          simp only [hexp] at h
          cases hrow : movieRowOf (.dict kvs) t eid with
          | none =>
              simp only [hrow] at h
              simp [mfail_apply] at h
          | some row =>
              simp only [hrow] at h
              by_cases ho : o s.ctr
              · simp [pgm_bind_apply, dbstep_apply, ho] at h
              · simp only [pgm_bind_apply, dbstep_apply, ho, Bool.false_eq_true,
                  if_false, ite_false, pgm_pure_apply, mmodify_apply] at h
                split at h <;>
                  · simp only [pgm_bind_apply, mmodify_apply, pgm_pure_apply,
                      DocRes.ok.injEq, Option.some.injEq] at h
                    obtain ⟨hmid, hs⟩ := h
                    subst hmid
                    subst hs
                    obtain ⟨ht, hid⟩ := movieRowOf_fields _ _ _ _ hrow
                    exact ⟨t, row, rfl, by simpa using upsertMovie_self_mem s.db row,
                      hid, ht⟩
      | none =>
          simp only [hexp] at h
          cases hrow : movieRowOf (.dict kvs) t 0 with
          | none =>
              simp only [hrow] at h
              simp [mfail_apply] at h
          | some row0 =>
              simp only [hrow] at h
              by_cases ho : o s.ctr
              · simp [pgm_bind_apply, dbstep_apply, ho] at h
              · simp only [pgm_bind_apply, dbstep_apply, ho, Bool.false_eq_true,
                  if_false, ite_false, pgm_pure_apply, mmodify_apply] at h
                split at h <;>
                  · simp only [pgm_bind_apply, mmodify_apply, pgm_pure_apply,
                      DocRes.ok.injEq, Option.some.injEq] at h
                    obtain ⟨hmid, hs⟩ := h
                    subst hmid
                    subst hs
                    obtain ⟨ht, -⟩ := movieRowOf_fields _ _ _ _ hrow
                    refine ⟨t, { row0 with id := (s.db.nextMovieId : Int) }, rfl, ?_, rfl, ht⟩
                    simp

/-- C8: the stored movie title is the first non-empty (after trimming) of
primary name, alternate name, english name (capped to the 500-char schema
limit); a document in which all three are absent/empty is skipped entirely
— `insert_movie_core` returns the absence-marker with the state untouched
(no row written, statistics unchanged), and the batch coordinator counts
it as one skip, zero inserts, leaving the state exactly as before. -/
theorem movie_title_derivation_and_skip :
    (∀ (o : Nat → Bool) (s : PgState) (kvs : List (String × DValue)) (mid : Int)
        (s' : PgState),
      insert_movie_core (.dict kvs) o s = .ok (some mid) s' →
      ∃ t r, movieTitle? (.dict kvs) = some t ∧ r ∈ s'.db.movies ∧ r.id = mid ∧
        r.title = truncStr t 500) ∧
    (∀ (o : Nat → Bool) (s : PgState) (kvs : List (String × DValue)),
      movieTitle? (.dict kvs) = none →
      insert_movie_core (.dict kvs) o s = .ok none s) ∧
    (∀ (o : Nat → Bool) (s : PgState) (kvs : List (String × DValue)),
      movieTitle? (.dict kvs) = none →
      process_movie_batch o [.dict kvs] s = (0, 1, s)) := by
  refine ⟨insert_movie_core_ok_mem, insert_movie_core_skip, fun o s kvs h => ?_⟩
  simp [process_movie_batch, movieWriteSeq, pgm_bind_apply,
    insert_movie_core_skip o s kvs h, pgm_pure_apply]

/-- C8 witness: a document with only a description has no title and is
skipped; a titled document stores its (trimmed) name. -/
theorem movie_title_derivation_and_skip_witness :
    process_movie_batch noFailO [.dict [("description", .str "x")]] initState =
      (0, 1, initState) ∧
    (∃ t r, movieTitle? (.dict [("name", .str " Alpha ")]) = some t ∧
      r ∈ (match insert_movie_core (.dict [("name", .str " Alpha ")]) noFailO initState with
            | .ok _ s' => s'
            | .err s' => s').db.movies ∧ r.title = truncStr t 500) := by
  constructor
  · exact movie_title_derivation_and_skip.2.2 noFailO initState
      [("description", .str "x")] (by decide)
  · have h : insert_movie_core (.dict [("name", .str " Alpha ")]) noFailO initState =
        .ok (some 1)
          (match insert_movie_core (.dict [("name", .str " Alpha ")]) noFailO initState with
            | .ok _ s' => s'
            | .err s' => s') := by decide
    obtain ⟨t, r, ht, hr, -, htt⟩ :=
      movie_title_derivation_and_skip.1 noFailO initState [("name", .str " Alpha ")] 1 _ h
    exact ⟨t, r, ht, hr, htt⟩

/-! ### C10 — zero treated as absence in season keys -/

theorem upsertSeasonRow_mem (s : PgState) (mid number : Int) (ec ad : Option Int)
    (pu de : Option String) :
    ∃ r ∈ ((upsertSeasonRow s mid number ec ad pu de).2).db.seasons,
      r.id = (upsertSeasonRow s mid number ec ad pu de).1 ∧
      r.movie_id = mid ∧ r.season_number = number := by
  unfold upsertSeasonRow
  cases hf : s.db.seasons.find? (fun r => r.movie_id == mid && r.season_number == number) with
  | some old =>
      have hmem := List.mem_of_find?_eq_some hf
      have hp := List.find?_some hf
      simp only [Bool.and_eq_true, beq_iff_eq] at hp
      let upd : SeasonRow :=
        { old with
          episodes_count := ec, air_date := ad, poster_url := pu, description := de }
      refine ⟨upd, ?_, rfl, hp.1, hp.2⟩
      simp only [List.mem_map]
      exact ⟨old, hmem, by simp [upd, hp.1, hp.2]⟩
  | none =>
      exact ⟨⟨s.db.nextSeasonId, mid, number, ec, ad, pu, de⟩, by simp, rfl, rfl, rfl⟩

theorem upsertEpisode_preserve (t : List EpisodeRow) (r : EpisodeRow) (sidv : Nat)
    (num : Int) (h : ∃ y ∈ t, y.season_id = sidv ∧ y.episode_number = num) :
    ∃ y ∈ upsertEpisode t r, y.season_id = sidv ∧ y.episode_number = num := by
  obtain ⟨x, hx, hk1, hk2⟩ := h
  unfold upsertEpisode
  split
  · by_cases hm : (x.season_id == r.season_id && x.episode_number == r.episode_number) = true
    · have hm' := hm
      simp only [Bool.and_eq_true, beq_iff_eq] at hm'
      refine ⟨r, List.mem_map.2 ⟨x, hx, by simp [hm]⟩, ?_, ?_⟩
      · rw [← hm'.1, hk1]
      · rw [← hm'.2, hk2]
    · refine ⟨x, List.mem_map.2 ⟨x, hx, ?_⟩, hk1, hk2⟩
      simp only [Bool.not_eq_true] at hm
      simp [hm]
  · exact ⟨x, List.mem_append_left _ hx, hk1, hk2⟩

theorem upsertEpisode_self (t : List EpisodeRow) (r : EpisodeRow) :
    ∃ y ∈ upsertEpisode t r,
      y.season_id = r.season_id ∧ y.episode_number = r.episode_number := by
  unfold upsertEpisode
  split
  · next hany =>
      rw [List.any_eq_true] at hany
      obtain ⟨x, hx, hm⟩ := hany
      exact ⟨r, List.mem_map.2 ⟨x, hx, by simp [hm]⟩, rfl, rfl⟩
  · exact ⟨r, List.mem_append_right _ (List.mem_singleton.2 rfl), rfl, rfl⟩

theorem foldl_upsertEpisode_preserve (rows : List EpisodeRow) :
    ∀ (t : List EpisodeRow) (sidv : Nat) (num : Int),
      (∃ y ∈ t, y.season_id = sidv ∧ y.episode_number = num) →
      ∃ y ∈ rows.foldl upsertEpisode t, y.season_id = sidv ∧ y.episode_number = num := by
  induction rows with
  | nil => exact fun t _ _ h => h
  | cons r rs ih =>
      intro t sidv num h
      exact ih _ _ _ (upsertEpisode_preserve _ _ _ _ h)

theorem foldl_upsertEpisode_mem (rows : List EpisodeRow) :
    ∀ (t : List EpisodeRow) (r : EpisodeRow), r ∈ rows →
      ∃ y ∈ rows.foldl upsertEpisode t,
        y.season_id = r.season_id ∧ y.episode_number = r.episode_number := by
  induction rows with
  | nil => intro t r h; simp at h
  | cons a rs ih =>
      intro t r h
      rcases List.mem_cons.1 h with rfl | h'
      · exact foldl_upsertEpisode_preserve rs _ _ _ (upsertEpisode_self t r)
      · exact ih _ _ h'

theorem seasonEpisodeRows_mem (sid : Nat) (eps : List DValue) (rows : List EpisodeRow)
    (h : seasonEpisodeRows sid eps = some rows) (ekvs : List (String × DValue))
    (hm : DValue.dict ekvs ∈ eps) :
    ∃ r ∈ rows, r.season_id = sid ∧
      r.episode_number = pyOrInt (as_int (dget (.dict ekvs) "number")) 0 := by
  induction eps generalizing rows with
  | nil => simp at hm
  | cons e es ih =>
      rcases List.mem_cons.1 hm with he | hm'
      · subst he
        simp only [seasonEpisodeRows] at h
        cases hso : subObj (.dict ekvs) "still" with
        | none => simp [hso] at h
        | some still =>
            simp only [hso] at h
            cases hrest : seasonEpisodeRows sid es with
            | none => simp [hrest] at h
            | some rest =>
                simp only [hrest, Option.some.injEq] at h
                subst h
                exact ⟨_, List.mem_cons_self _ _, rfl, rfl⟩
      · cases e with
        | dict kv2 =>
            simp only [seasonEpisodeRows] at h
            cases hso : subObj (.dict kv2) "still" with
            | none => simp [hso] at h
            | some still =>
                simp only [hso] at h
                cases hrest : seasonEpisodeRows sid es with
                | none => simp [hrest] at h
                | some rest =>
                    simp only [hrest, Option.some.injEq] at h
                    subst h
                    obtain ⟨r, hr, h1, h2⟩ := ih rest hrest hm'
                    exact ⟨r, List.mem_cons_of_mem _ hr, h1, h2⟩
        | null => simp [seasonEpisodeRows] at h
        | bool b => simp [seasonEpisodeRows] at h
        | int n => simp [seasonEpisodeRows] at h
        | float q => simp [seasonEpisodeRows] at h
        | str st => simp [seasonEpisodeRows] at h
        | dt d => simp [seasonEpisodeRows] at h
        | list xs => simp [seasonEpisodeRows] at h

theorem upsert_season_ok_spec (o : Nat → Bool) (s : PgState)
    (kvs : List (String × DValue)) (sid : Nat) (s' : PgState)
    (h : upsert_season (.dict kvs) o s = .ok (some sid) s') :
    (∃ r ∈ s'.db.seasons, r.id = sid ∧
      r.season_number = pyOrInt (as_int (dget (.dict kvs) "number")) 1) ∧
    (∀ (eps : List DValue) (ekvs : List (String × DValue)),
      dget (.dict kvs) "episodes" = .list eps → DValue.dict ekvs ∈ eps →
      ∃ r ∈ s'.db.episodes, r.season_id = sid ∧
        r.episode_number = pyOrInt (as_int (dget (.dict ekvs) "number")) 0) := by
  simp only [upsert_season] at h
  cases hmv : as_int (dget (.dict kvs) "movieId") with
  | none => rw [hmv] at h; simp [pgm_pure_apply] at h
  | some mid =>
      simp only [hmv] at h
      by_cases hz : (mid == 0) = true
      · rw [if_pos hz] at h; simp [pgm_pure_apply] at h
      · rw [if_neg hz] at h
        by_cases ho1 : o s.ctr
        · simp [pgm_bind_apply, dbstep_apply, ho1] at h
        · simp only [pgm_bind_apply, dbstep_apply, ho1, Bool.false_eq_true, if_false,
            ite_false, pgm_pure_apply] at h
          by_cases hex : s.db.movies.any (fun r => r.id == mid)
          · simp only [hex, Bool.not_true, Bool.false_eq_true, if_false, ite_false] at h
            cases hpo : subObj (.dict kvs) "poster" with
            | none => rw [hpo] at h; simp [mfail_apply] at h
            | some poster =>
                simp only [hpo] at h
                by_cases ho2 : o (s.ctr + 1)
                · simp [pgm_bind_apply, dbstep_apply, ho2] at h
                · simp only [pgm_bind_apply, dbstep_apply, ho2, Bool.false_eq_true,
                    if_false, ite_false, mmodify_apply, pgm_pure_apply] at h
                  generalize hpr : upsertSeasonRow
                    { s with ctr := s.ctr + 1 + 1 } mid
                    (pyOrInt (as_int (dget (.dict kvs) "number")) 1)
                    (as_int (dget (.dict kvs) "episodesCount"))
                    ((parse_mongo_date (dget (.dict kvs) "airDate")).map MDateTime.dateDays)
                    (normalize_text (dget poster "url"))
                    (normalize_text (dget (.dict kvs) "description")) = pr at h
                  obtain ⟨sid0, s2⟩ := pr
                  simp only at h
                  have hseason := upsertSeasonRow_mem
                    { s with ctr := s.ctr + 1 + 1 } mid
                    (pyOrInt (as_int (dget (.dict kvs) "number")) 1)
                    (as_int (dget (.dict kvs) "episodesCount"))
                    ((parse_mongo_date (dget (.dict kvs) "airDate")).map MDateTime.dateDays)
                    (normalize_text (dget poster "url"))
                    (normalize_text (dget (.dict kvs) "description"))
                  rw [hpr] at hseason
                  simp only at hseason
                  cases hie : iterElems (if truthy (dget (.dict kvs) "episodes")
                      then dget (.dict kvs) "episodes" else .list []) with
                  | none => rw [hie] at h; simp [mfail_apply] at h
                  | some eps1 =>
                      simp only [hie] at h
                      cases hrows : seasonEpisodeRows sid0 eps1 with
                      | none => rw [hrows] at h; simp [mfail_apply] at h
                      | some rows =>
                          simp only [hrows] at h
                          by_cases hre : rows.isEmpty
                          · simp only [hre, if_true, ite_true, pgm_pure_apply,
                              DocRes.ok.injEq, Option.some.injEq] at h
                            obtain ⟨hsid, hs⟩ := h
                            subst hsid
                            subst hs
                            constructor
                            · obtain ⟨r, hr, h1, h2, h3⟩ := hseason
                              exact ⟨r, hr, h1, h3⟩
                            · intro eps ekvs hev hmem
                              exfalso
                              rw [hev] at hie
                              have hne : eps ≠ [] := by
                                intro hnil; rw [hnil] at hmem; simp at hmem
                              have htr : truthy (DValue.list eps) = true := by
                                simp [truthy, hne]
                              rw [htr] at hie
                              simp only [if_true, ite_true, iterElems,
                                Option.some.injEq] at hie
                              subst hie
                              obtain ⟨r, hr, -, -⟩ :=
                                seasonEpisodeRows_mem _ _ _ hrows ekvs hmem
                              rw [List.isEmpty_iff] at hre
                              rw [hre] at hr
                              simp at hr
                          · simp only [hre, Bool.false_eq_true, if_false, ite_false,
                              pgm_bind_apply, dbstep_apply] at h
                            by_cases ho3 : o s2.ctr
                            · simp [ho3] at h
                            · simp only [ho3, Bool.false_eq_true, if_false, ite_false,
                                pgm_pure_apply, DocRes.ok.injEq, Option.some.injEq] at h
                              obtain ⟨hsid, hs⟩ := h
                              subst hsid
                              subst hs
                              constructor
                              · obtain ⟨r, hr, h1, h2, h3⟩ := hseason
                                exact ⟨r, by simpa using hr, h1, h3⟩
                              · intro eps ekvs hev hmem
                                rw [hev] at hie
                                have hne : eps ≠ [] := by
                                  intro hnil; rw [hnil] at hmem; simp at hmem
                                have htr : truthy (DValue.list eps) = true := by
                                  simp [truthy, hne]
                                rw [htr] at hie
                                simp only [if_true, ite_true, iterElems,
                                  Option.some.injEq] at hie
                                subst hie
                                obtain ⟨r, hr, h1, h2⟩ :=
                                  seasonEpisodeRows_mem _ _ _ hrows ekvs hmem
                                obtain ⟨y, hy, hy1, hy2⟩ :=
                                  foldl_upsertEpisode_mem rows s2.db.episodes r hr
                                refine ⟨y, by simpa using hy, ?_, ?_⟩
                                · rw [hy1, h1]
                                · rw [hy2, h2]
          · simp only [hex, Bool.not_false, if_true, ite_true, pgm_pure_apply] at h
            simp at h

/-- C10: `upsert_season` treats a zero `movieId` as absence — the document
is skipped with no write and unchanged state; a season number parsing to 0
is replaced by the default 1 (`x or 1` in Python, exactly as if the field
were missing, since `pyOrInt none 1 = pyOrInt (some 0) 1 = 1`); an episode
number parsing to 0 is kept as 0 (`x or 0`). -/
theorem season_zero_treated_as_absent :
    (∀ (o : Nat → Bool) (s : PgState) (kvs : List (String × DValue)),
      as_int (dget (.dict kvs) "movieId") = some 0 →
      upsert_season (.dict kvs) o s = .ok none s) ∧
    (∀ (o : Nat → Bool) (s : PgState) (kvs : List (String × DValue)) (sid : Nat)
        (s' : PgState),
      upsert_season (.dict kvs) o s = .ok (some sid) s' →
      ∃ r ∈ s'.db.seasons, r.id = sid ∧
        r.season_number = pyOrInt (as_int (dget (.dict kvs) "number")) 1) ∧
    pyOrInt (some 0) 1 = 1 ∧ pyOrInt none 1 = 1 ∧ pyOrInt (some 0) 0 = 0 ∧
    (∀ (o : Nat → Bool) (s : PgState) (kvs ekvs : List (String × DValue)) (sid : Nat)
        (s' : PgState) (eps : List DValue),
      upsert_season (.dict kvs) o s = .ok (some sid) s' →
      dget (.dict kvs) "episodes" = .list eps →
      DValue.dict ekvs ∈ eps →
      as_int (dget (.dict ekvs) "number") = some 0 →
      ∃ r ∈ s'.db.episodes, r.season_id = sid ∧ r.episode_number = 0) := by
  refine ⟨fun o s kvs h => ?_,
    fun o s kvs sid s' h => (upsert_season_ok_spec o s kvs sid s' h).1,
    rfl, rfl, rfl,
    fun o s kvs ekvs sid s' eps h hev hmem hz => ?_⟩
  · simp [upsert_season, h, pgm_pure_apply]
  · obtain ⟨r, hr, h1, h2⟩ := (upsert_season_ok_spec o s kvs sid s' h).2 eps ekvs hev hmem
    refine ⟨r, hr, h1, ?_⟩
    rw [h2, hz]
    rfl

/-- Concrete base state containing movie 7 for the C10 witness. -/
def c10Base : PgState :=
  (process_movie_batch noFailO [.dict [("id", .int 7), ("name", .str "Alpha")]]
    initState).2.2

/-- Season document with zero movie-key fields for the C10 witness. -/
def c10Doc : DValue :=
  .dict [("movieId", .int 7), ("number", .int 0),
         ("episodes", .list [.dict [("number", .int 0)]])]

/-- Final state of the C10 witness run. -/
def c10Final : PgState :=
  match upsert_season c10Doc noFailO c10Base with
  | .ok _ s' => s'
  | .err s' => s'

/-- C10 witness: movieId 0 skips; season number 0 becomes 1; episode
number 0 stays 0. -/
theorem season_zero_treated_as_absent_witness :
    upsert_season (.dict [("movieId", .int 0)]) noFailO initState =
      .ok none initState ∧
    (∃ r ∈ c10Final.db.seasons, r.id = 1 ∧ r.season_number = 1) ∧
    (∃ r ∈ c10Final.db.episodes, r.season_id = 1 ∧ r.episode_number = 0) := by
  have hrun : upsert_season c10Doc noFailO c10Base = .ok (some 1) c10Final := by decide
  refine ⟨season_zero_treated_as_absent.1 noFailO initState _ (by decide), ?_, ?_⟩
  · have h := season_zero_treated_as_absent.2.1 noFailO c10Base
      [("movieId", .int 7), ("number", .int 0),
       ("episodes", .list [.dict [("number", .int 0)]])] 1 c10Final hrun
    have e : pyOrInt (as_int (dget c10Doc "number")) 1 = 1 := by decide
    rw [show DValue.dict [("movieId", .int 7), ("number", .int 0),
      ("episodes", .list [.dict [("number", .int 0)]])] = c10Doc from rfl, e] at h
    exact h
  · exact season_zero_treated_as_absent.2.2.2.2.2 noFailO c10Base
      [("movieId", .int 7), ("number", .int 0),
       ("episodes", .list [.dict [("number", .int 0)]])]
      [("number", .int 0)] 1 c10Final [.dict [("number", .int 0)]]
      hrun rfl (List.mem_singleton.2 rfl) (by decide)

/-! ### C9 — distribution release date -/

/-- C9: when the distributor of a movie document resolves, exactly one
`movie_distributors` row is inserted (given no association for the pair
exists yet), typed "theatrical" and dated by the russia premiere when it
parses, else the world premiere, else the absence-marker. -/
theorem distributor_release_date (o : Nat → Bool) (s s1 : PgState) (movie_id : Int)
    (kvs dd : List (String × DValue)) (did : Nat)
    (hsub : subObj (.dict kvs) "distributors" = some (.dict dd))
    (hres : upsert_distributor (normalize_text (dget (.dict dd) "distributor"))
        (normalize_text (dget (.dict dd) "distributorRelease")) o s = .ok (some did) s1)
    (hdid : (did != 0) = true)
    (hins : o s1.ctr = false)
    (hconf : s1.db.movie_distributors.any
        (fun x => x.movie_id == movie_id && x.distributor_id == did) = false) :
    link_distributor movie_id (.dict kvs) o s =
      .ok () { s1 with
        ctr := s1.ctr + 1,
        db := { s1.db with movie_distributors := s1.db.movie_distributors ++
          [⟨movie_id, did, "theatrical",
            (((parse_mongo_date (get_nested (.dict kvs) ["premiere", "russia"])) <|>
              (parse_mongo_date (get_nested (.dict kvs) ["premiere", "world"]))).map
                MDateTime.dateDays)⟩] } } := by
  simp only [link_distributor, hsub, pgm_bind_apply, hres, hdid, dbstep_apply, hins,
    Bool.false_eq_true, if_false, if_true, ite_false, ite_true, addMDRow]
  simp [addMDRow, hconf]

/-- Movie document for the C9 witness. -/
def c9Kvs : List (String × DValue) :=
  [("distributors", .dict [("distributor", .str "Dist")]),
   ("premiere", .dict [("russia", .str "2020-02-06T00:00:00Z"),
                       ("world", .str "2020-01-05T00:00:00Z")])]

/-- State after resolving the C9 witness distributor. -/
def c9S1 : PgState :=
  match upsert_distributor (normalize_text (dget (.dict [("distributor",
      DValue.str "Dist")]) "distributor"))
    (normalize_text (dget (.dict [("distributor", DValue.str "Dist")])
      "distributorRelease")) noFailO initState with
  | .ok _ s' => s'
  | .err s' => s'

/-- C9 witness: russia premiere 2020-02-06 (day 18298) wins over the world
premiere, and exactly one association row appears. -/
theorem distributor_release_date_witness :
    ∃ st, link_distributor 7 (.dict c9Kvs) noFailO initState = .ok () st ∧
      st.db.movie_distributors = [⟨7, 1, "theatrical", some 18298⟩] := by
  have h := distributor_release_date noFailO initState c9S1 7 c9Kvs
    [("distributor", DValue.str "Dist")] 1 rfl (by decide) (by decide)
    (by decide) (by decide)
  refine ⟨_, h, ?_⟩
  decide

/-! ### C4 — entity-resolver idempotence -/

/-- C4: within one run (statements succeeding), calling a resolver twice
with the same natural key returns the same identifier both times, the
second call leaves the state exactly unchanged (no observable side effect
after the first successful creation), and at most one row is created
(the created-row counters grow by at most one). Shown for the country
resolver and the person resolver. -/
theorem resolver_idempotent :
    (∀ (s : PgState) (name : String),
      ∃ v s1, get_or_create_country name noFailO s = .ok v s1 ∧
        get_or_create_country name noFailO s1 = .ok v s1 ∧
        s1.stats.countries_created ≤ s.stats.countries_created + 1) ∧
    (∀ (s : PgState) (kvs : List (String × DValue)),
      ∃ v s1, upsert_person (.dict kvs) noFailO s = .ok v s1 ∧
        upsert_person (.dict kvs) noFailO s1 = .ok v s1 ∧
        s1.stats.people_inserted ≤ s.stats.people_inserted + 1) := by
  constructor
  · intro s name
    by_cases hn : (truncStr (pyStrip name) 100 == "") = true
    · exact ⟨none, s, by simp [get_or_create_country, hn, pgm_pure_apply],
        by simp [get_or_create_country, hn, pgm_pure_apply], Nat.le_succ _⟩
    · cases hc : alookup s.cacheCountries (truncStr (pyStrip name) 100) with
      | some cid =>
          exact ⟨some cid, s,
            by simp [get_or_create_country, hn, hc, pgm_bind_apply, mread_apply,
              pgm_pure_apply],
            by simp [get_or_create_country, hn, hc, pgm_bind_apply, mread_apply,
              pgm_pure_apply],
            Nat.le_succ _⟩
      | none =>
          cases hf : (s.db.countries.find? (fun p =>
              p.2 == truncStr (pyStrip name) 100)).map Prod.fst with
          | some cid =>
              by_cases hz : cid = 0
              · refine ⟨some s.db.nextCountryId,
                  { s with
                    ctr := s.ctr + 2,
                    db := { s.db with
                      countries := s.db.countries ++
                        [(s.db.nextCountryId, truncStr (pyStrip name) 100)],
                      nextCountryId := s.db.nextCountryId + 1 },
                    cacheCountries :=
                      (truncStr (pyStrip name) 100, s.db.nextCountryId) ::
                        s.cacheCountries,
                    stats := { s.stats with
                      countries_created := s.stats.countries_created + 1 } },
                  ?_, ?_, Nat.le_refl _⟩
                · simp [get_or_create_country, createCountry, hn, hc, hf, hz,
                    pgm_bind_apply, mread_apply, mmodify_apply, dbstep_apply,
                    pgm_pure_apply, noFailO]
                · simp [get_or_create_country, hn, alookup, pgm_bind_apply,
                    mread_apply, pgm_pure_apply]
              · refine ⟨some cid,
                  { s with
                    ctr := s.ctr + 1,
                    cacheCountries :=
                      (truncStr (pyStrip name) 100, cid) :: s.cacheCountries },
                  ?_, ?_, Nat.le_succ _⟩
                · simp [get_or_create_country, hn, hc, hf, hz, pgm_bind_apply,
                    mread_apply, mmodify_apply, dbstep_apply, pgm_pure_apply, noFailO]
                · simp [get_or_create_country, hn, alookup, pgm_bind_apply,
                    mread_apply, pgm_pure_apply]
          | none =>
              refine ⟨some s.db.nextCountryId,
                { s with
                  ctr := s.ctr + 2,
                  db := { s.db with
                    countries := s.db.countries ++
                      [(s.db.nextCountryId, truncStr (pyStrip name) 100)],
                    nextCountryId := s.db.nextCountryId + 1 },
                  cacheCountries :=
                    (truncStr (pyStrip name) 100, s.db.nextCountryId) ::
                      s.cacheCountries,
                  stats := { s.stats with
                    countries_created := s.stats.countries_created + 1 } },
                ?_, ?_, Nat.le_refl _⟩
              · simp [get_or_create_country, createCountry, hn, hc, hf,
                  pgm_bind_apply, mread_apply, mmodify_apply, dbstep_apply,
                  pgm_pure_apply, noFailO]
              · simp [get_or_create_country, hn, alookup, pgm_bind_apply,
                  mread_apply, pgm_pure_apply]
  · intro s kvs
    cases hname : personName? (.dict kvs) with
    | none =>
        exact ⟨none, s, by simp [upsert_person, hname, pgm_pure_apply],
          by simp [upsert_person, hname, pgm_pure_apply], Nat.le_succ _⟩
    | some name =>
        cases hc : plookup s.cachePersons (name, personEnName (.dict kvs)) with
        | some pid =>
            exact ⟨some pid, s,
              by simp [upsert_person, hname, hc, pgm_bind_apply, mread_apply,
                pgm_pure_apply],
              by simp [upsert_person, hname, hc, pgm_bind_apply, mread_apply,
                pgm_pure_apply],
              Nat.le_succ _⟩
        | none =>
            cases hf : s.db.people.find? (fun r =>
                r.name == name &&
                  r.en_name.getD "" == (personEnName (.dict kvs)).getD "") with
            | some row =>
                refine ⟨some row.id,
                  { s with
                    ctr := s.ctr + 2,
                    db := { s.db with people := s.db.people.map (fun r =>
                      if r.id == row.id then
                        { r with
                          photo_url :=
                            (normalize_text (dget (.dict kvs) "photo")) <|> r.photo_url,
                          birth_date :=
                            ((parse_mongo_date (dget (.dict kvs) "birthday")).map
                              MDateTime.dateDays) <|> r.birth_date,
                          death_date :=
                            ((parse_mongo_date (dget (.dict kvs) "death")).map
                              MDateTime.dateDays) <|> r.death_date,
                          birth_place := (birthPlaceOf (.dict kvs)) <|> r.birth_place }
                      else r) },
                    cachePersons :=
                      ((name, personEnName (.dict kvs)), row.id) :: s.cachePersons,
                    stats := { s.stats with
                      people_updated := s.stats.people_updated + 1 } },
                  ?_, ?_, Nat.le_succ _⟩
                · simp [upsert_person, hname, hc, hf, pgm_bind_apply, mread_apply,
                    mmodify_apply, dbstep_apply, pgm_pure_apply, noFailO]
                · simp [upsert_person, hname, plookup, pgm_bind_apply, mread_apply,
                    pgm_pure_apply]
            | none =>
                refine ⟨some s.db.nextPersonId,
                  { s with
                    ctr := s.ctr + 2,
                    db := { s.db with
                      people := s.db.people ++
                        [⟨s.db.nextPersonId, name, personEnName (.dict kvs),
                          (parse_mongo_date (dget (.dict kvs) "birthday")).map
                            MDateTime.dateDays,
                          (parse_mongo_date (dget (.dict kvs) "death")).map
                            MDateTime.dateDays,
                          birthPlaceOf (.dict kvs),
                          normalize_text (dget (.dict kvs) "photo")⟩],
                      nextPersonId := s.db.nextPersonId + 1 },
                    cachePersons :=
                      ((name, personEnName (.dict kvs)), s.db.nextPersonId) ::
                        s.cachePersons,
                    stats := { s.stats with
                      people_inserted := s.stats.people_inserted + 1 } },
                  ?_, ?_, Nat.le_refl _⟩
                · simp [upsert_person, hname, hc, hf, pgm_bind_apply, mread_apply,
                    mmodify_apply, dbstep_apply, pgm_pure_apply, noFailO]
                · simp [upsert_person, hname, plookup, pgm_bind_apply, mread_apply,
                    pgm_pure_apply]

/-! ### C7 — bulk insert with per-row fallback -/

/-- Reference formulation of the per-row fallback: starting at statement
counter `c`, each row whose statement the oracle passes is inserted
(`ON CONFLICT DO NOTHING`), each failing row is dropped, all others
unaffected. -/
def applyRowsIf (o : Nat → Bool) : Nat → List MPRow → List MPRow → List MPRow
  | _, [], t => t
  | c, r :: rs, t => applyRowsIf o (c + 1) rs (if o c then t else addMPRow t r)

theorem addMPRow_mem_mono (t : List MPRow) (r y : MPRow) (h : y ∈ t) :
    y ∈ addMPRow t r := by
  unfold addMPRow
  split
  · exact h
  · exact List.mem_append_left _ h

theorem addMPRow_key_self (t : List MPRow) (r : MPRow) :
    ∃ y ∈ addMPRow t r, mpKey y = mpKey r := by
  unfold addMPRow
  split
  · next hany =>
      rw [List.any_eq_true] at hany
      obtain ⟨x, hx, hk⟩ := hany
      exact ⟨x, hx, by simpa using hk⟩
  · exact ⟨r, List.mem_append_right _ (List.mem_singleton.2 rfl), rfl⟩

theorem applyRowsIf_mem_mono (rows : List MPRow) :
    ∀ (o : Nat → Bool) (c : Nat) (t : List MPRow) (y : MPRow), y ∈ t →
      y ∈ applyRowsIf o c rows t := by
  induction rows with
  | nil => intro _ _ _ _ h; exact h
  | cons r rs ih =>
      intro o c t y h
      unfold applyRowsIf
      by_cases ho : o c
      · simp only [ho, if_true, ite_true]
        exact ih o (c + 1) t y h
      · simp only [ho, Bool.false_eq_true, if_false, ite_false]
        exact ih o (c + 1) _ y (addMPRow_mem_mono t r y h)

theorem applyRowsIf_key (rows : List MPRow) :
    ∀ (o : Nat → Bool) (c : Nat) (t : List MPRow) (i : Nat) (h : i < rows.length),
      o (c + i) = false →
      ∃ y ∈ applyRowsIf o c rows t, mpKey y = mpKey (rows.get ⟨i, h⟩) := by
  induction rows with
  | nil => intro o c t i h; simp at h
  | cons r rs ih =>
      intro o c t i h hi
      cases i with
      | zero =>
          have hc : o c = false := by simpa using hi
          unfold applyRowsIf
          rw [hc]
          simp only [Bool.false_eq_true, if_false, ite_false]
          obtain ⟨y, hy, hk⟩ := addMPRow_key_self t r
          exact ⟨y, applyRowsIf_mem_mono rs o (c + 1) _ y hy, hk⟩
      | succ j =>
          have hj : j < rs.length := by simpa using h
          have hcj : o (c + 1 + j) = false := by
            have : c + (j + 1) = c + 1 + j := by omega
            rw [← this]; exact hi
          unfold applyRowsIf
          obtain ⟨y, hy, hk⟩ := ih o (c + 1) (if o c then t else addMPRow t r) j hj hcj
          exact ⟨y, hy, hk⟩

theorem mpPerRow_spec (rows : List MPRow) :
    ∀ (o : Nat → Bool) (s : PgState) (linked : Nat),
      ∃ n s', mpPerRow rows linked o s = .ok n s' ∧
        s'.db.movie_people = applyRowsIf o s.ctr rows s.db.movie_people := by
  induction rows with
  | nil => exact fun o s linked => ⟨linked, s, rfl, rfl⟩
  | cons r rs ih =>
      intro o s linked
      by_cases ho : o s.ctr
      · obtain ⟨n, s', h1, h2⟩ := ih o { s with ctr := s.ctr + 1 } linked
        refine ⟨n, s', ?_, ?_⟩
        · simp [mpPerRow, pgm_bind_apply, mattempt_apply, dbstep_apply, ho, h1]
        · rw [h2]
          simp [applyRowsIf, ho]
      · obtain ⟨n, s', h1, h2⟩ := ih o
          { s with
            ctr := s.ctr + 1,
            db := { s.db with movie_people := addMPRow s.db.movie_people r } }
          (linked + 1)
        refine ⟨n, s', ?_, ?_⟩
        · simp [mpPerRow, pgm_bind_apply, mattempt_apply, dbstep_apply, ho, h1]
        · rw [h2]
          simp [applyRowsIf, ho]

/-- C7: when the bulk multi-row `movie_people` insert fails, the same rows
are retried one at a time from the next statement on: the final table is
exactly the fold that inserts each oracle-passing row and drops each
failing one, and every row whose own statement succeeds is present (by its
association key) — only offending rows are dropped. -/
theorem mp_bulk_fallback (o : Nat → Bool) (s : PgState) (rows : List MPRow)
    (hbulk : o s.ctr = true) :
    ∃ s', mpBulkOrFallback rows o s = .ok () s' ∧
      s'.db.movie_people = applyRowsIf o (s.ctr + 1) rows s.db.movie_people ∧
      (∀ (i : Nat) (h : i < rows.length), o (s.ctr + 1 + i) = false →
        ∃ y ∈ s'.db.movie_people, mpKey y = mpKey (rows.get ⟨i, h⟩)) := by
  obtain ⟨n, s', h1, h2⟩ := mpPerRow_spec rows o { s with ctr := s.ctr + 1 } 0
  refine ⟨{ s' with stats := { s'.stats with
      movie_people_linked := s'.stats.movie_people_linked + n } }, ?_, ?_, ?_⟩
  · simp [mpBulkOrFallback, pgm_bind_apply, mattempt_apply, dbstep_apply, hbulk,
      h1, mmodify_apply, pgm_pure_apply]
  · simpa using h2
  · intro i h hi
    obtain ⟨y, hy, hk⟩ := applyRowsIf_key rows o (s.ctr + 1) s.db.movie_people i h hi
    refine ⟨y, ?_, hk⟩
    have h2' : s'.db.movie_people =
        applyRowsIf o (s.ctr + 1) rows s.db.movie_people := by simpa using h2
    simpa [h2'] using hy

/-- Association rows for the C7 witness. -/
def c7Row1 : MPRow := ⟨1, 1, none, none, 1⟩

/-- Second association row for the C7 witness. -/
def c7Row2 : MPRow := ⟨1, 2, none, none, 2⟩

/-- Oracle for the C7 witness: the bulk statement (0) and the first
per-row statement (1) fail; everything else succeeds. -/
def c7O : Nat → Bool := fun n => n == 0 || n == 1

/-- C7 witness: with the bulk failing and row 1 offending, only row 1 is
dropped and row 2 is still written. -/
theorem mp_bulk_fallback_witness :
    ∃ s', mpBulkOrFallback [c7Row1, c7Row2] c7O initState = .ok () s' ∧
      s'.db.movie_people = applyRowsIf c7O 1 [c7Row1, c7Row2] [] ∧
      applyRowsIf c7O 1 [c7Row1, c7Row2] [] = [c7Row2] := by
  obtain ⟨s', h1, h2, h3⟩ := mp_bulk_fallback c7O initState [c7Row1, c7Row2] (by decide)
  exact ⟨s', h1, h2, by decide⟩

/-! ### C6 — movie-people ordering and deduplication -/

/-- Position/character invariant of one link row relative to a processed
person-reference prefix. -/
def mpRowInv (pre : List DValue) (r : MPRow) : Prop :=
  1 ≤ r.order_index ∧ r.order_index ≤ pre.length ∧
    ∃ hlt : r.order_index - 1 < pre.length,
      r.character_name = truncate_text (normalize_text
        (dget (pre.get ⟨r.order_index - 1, hlt⟩) "description")) 200

theorem mpRowInv_lift (pre : List DValue) (p : DValue) (r : MPRow)
    (h : mpRowInv pre r) : mpRowInv (pre ++ [p]) r := by
  obtain ⟨h1, h2, hlt, hc⟩ := h
  have hlen : (pre ++ [p]).length = pre.length + 1 := by
    rw [List.length_append]; rfl
  have hlt' : r.order_index - 1 < (pre ++ [p]).length := by rw [hlen]; omega
  refine ⟨h1, by rw [hlen]; omega, hlt', ?_⟩
  rw [hc]
  congr 2
  have : (pre ++ [p]).get ⟨r.order_index - 1, hlt'⟩ = pre.get ⟨r.order_index - 1, hlt⟩ := by
    simp [List.getElem_append_left, hlt]
  rw [this]

theorem mpRowInv_new (pre : List DValue) (p : DValue) (pid : Nat) (rid : Option Nat)
    (movie_id : Int) :
    mpRowInv (pre ++ [p])
      ⟨movie_id, pid, rid, truncate_text (normalize_text (dget p "description")) 200,
        (pre ++ [p]).length⟩ := by
  have hlen : (pre ++ [p]).length = pre.length + 1 := by
    rw [List.length_append]; rfl
  have hlt : (pre ++ [p]).length - 1 < (pre ++ [p]).length := by rw [hlen]; omega
  have h1 : 1 ≤ (pre ++ [p]).length := by rw [hlen]; omega
  have hget : (pre ++ [p]).get ⟨(pre ++ [p]).length - 1, hlt⟩ = p := by
    simp [hlen, List.getElem_concat_length]
  refine ⟨h1, le_refl _, hlt, ?_⟩
  show truncate_text (normalize_text (dget p "description")) 200 =
    truncate_text (normalize_text
      (dget ((pre ++ [p]).get ⟨(pre ++ [p]).length - 1, hlt⟩) "description")) 200
  rw [hget]

/-- The dedup key used by `insert_movie_people`. -/
def mpTriple (r : MPRow) : Nat × Option Nat × Option String :=
  (r.person_id, r.role_id, r.character_name)

theorem movie_people_rows_go_spec (movie_id : Int) (ps : List DValue) :
    ∀ (pre : List DValue) (seen : List (Nat × Option Nat × Option String))
      (acc : List MPRow) (o : Nat → Bool) (s s' : PgState) (rows : List MPRow),
      movie_people_rows movie_id ps pre.length seen acc o s = .ok rows s' →
      (∀ r ∈ acc, r.movie_id = movie_id ∧ mpRowInv pre r) →
      List.Pairwise (fun a b => b.order_index < a.order_index) acc →
      (∀ r ∈ acc, mpTriple r ∈ seen) →
      List.Pairwise (fun a b => mpTriple a ≠ mpTriple b) acc →
      (∀ r ∈ rows, r.movie_id = movie_id ∧ mpRowInv (pre ++ ps) r) ∧
      List.Pairwise (fun a b => a.order_index < b.order_index) rows ∧
      List.Pairwise (fun a b => mpTriple a ≠ mpTriple b) rows := by
  induction ps with
  | nil =>
      intro pre seen acc o s s' rows h hinv hdec hseen hdist
      simp only [movie_people_rows, pgm_pure_apply, DocRes.ok.injEq] at h
      obtain ⟨hrows, -⟩ := h
      subst hrows
      refine ⟨?_, ?_, ?_⟩
      · intro r hr
        rw [List.mem_reverse] at hr
        simpa using hinv r hr
      · rw [List.pairwise_reverse]
        exact hdec
      · rw [List.pairwise_reverse]
        exact hdist.imp (fun hne => Ne.symm hne)
  | cons p rest ih =>
      intro pre seen acc o s s' rows h hinv hdec hseen hdist
      simp only [movie_people_rows, pgm_bind_apply] at h
      have hidx : pre.length + 1 = (pre ++ [p]).length := by
        rw [List.length_append]; rfl
      have hlist : (pre ++ [p]) ++ rest = pre ++ p :: rest := by simp
      have hliftall : (∀ r ∈ acc, r.movie_id = movie_id ∧ mpRowInv (pre ++ [p]) r) :=
        fun r hr => ⟨(hinv r hr).1, mpRowInv_lift pre p r (hinv r hr).2⟩
      cases hup : upsert_person p o s with
      | err s1 => simp [hup] at h
      | ok pid? s1 =>
          cases pid? with
          | none =>
              simp only [hup] at h
              rw [hidx] at h
              have := ih (pre ++ [p]) seen acc o s1 s' rows h hliftall hdec hseen hdist
              rwa [hlist] at this
          | some pid =>
              simp only [hup] at h
              by_cases hz : (pid == 0) = true
              · rw [if_pos hz] at h
                rw [hidx] at h
                have := ih (pre ++ [p]) seen acc o s1 s' rows h hliftall hdec hseen hdist
                rwa [hlist] at this
              · rw [if_neg hz] at h
                have hcont : ∀ (rid : Option Nat) (s2 : PgState),
                    (if seen.contains (pid, rid,
                        truncate_text (normalize_text (dget p "description")) 200) then
                      movie_people_rows movie_id rest (pre.length + 1) seen acc
                     else
                      movie_people_rows movie_id rest (pre.length + 1)
                        ((pid, rid, truncate_text (normalize_text (dget p "description")) 200)
                          :: seen)
                        (⟨movie_id, pid, rid,
                          truncate_text (normalize_text (dget p "description")) 200,
                          pre.length + 1⟩ :: acc)) o s2 = .ok rows s' →
                    (∀ r ∈ rows, r.movie_id = movie_id ∧ mpRowInv (pre ++ p :: rest) r) ∧
                    List.Pairwise (fun a b => a.order_index < b.order_index) rows ∧
                    List.Pairwise (fun a b => mpTriple a ≠ mpTriple b) rows := by
                  intro rid s2 hrun
                  by_cases hc : seen.contains (pid, rid,
                      truncate_text (normalize_text (dget p "description")) 200) = true
                  · rw [if_pos hc] at hrun
                    rw [hidx] at hrun
                    have := ih (pre ++ [p]) seen acc o s2 s' rows hrun hliftall hdec
                      hseen hdist
                    rwa [hlist] at this
                  · rw [if_neg hc] at hrun
                    rw [hidx] at hrun
                    have hnotin : (pid, rid,
                        truncate_text (normalize_text (dget p "description")) 200) ∉ seen := by
                      intro hmem
                      exact hc (List.elem_eq_true_of_mem hmem)
                    have := ih (pre ++ [p]) _ _ o s2 s' rows hrun
                      (fun r hr => by
                        rcases List.mem_cons.1 hr with rfl | hr'
                        · exact ⟨rfl, mpRowInv_new pre p pid rid movie_id⟩
                        · exact hliftall r hr')
                      (by
                        refine List.Pairwise.cons ?_ hdec
                        intro b hb
                        have hble := (hinv b hb).2.2.1
                        show b.order_index < (pre ++ [p]).length
                        rw [← hidx]
                        exact Nat.lt_succ_of_le hble)
                      (fun r hr => by
                        rcases List.mem_cons.1 hr with rfl | hr'
                        · exact List.mem_cons_self _ _
                        · exact List.mem_cons_of_mem _ (hseen r hr'))
                      (by
                        refine List.Pairwise.cons ?_ hdist
                        intro b hb heq
                        apply hnotin
                        have hmem := hseen b hb
                        rw [← heq] at hmem
                        exact hmem)
                    rwa [hlist] at this
                cases hrn : alookup roleMap
                    (pyLower ((normalize_text (dget p "enProfession")).getD "")) with
                | some rn =>
                    simp only [hrn, pgm_bind_apply] at h
                    cases hrid : get_role_id rn o s1 with
                    | err s2 => simp [hrid] at h
                    | ok rid s2 =>
                        simp only [hrid] at h
                        exact hcont rid s2 h
                | none =>
                    simp only [hrn, pgm_bind_apply, pgm_pure_apply] at h
                    exact hcont none s1 h

/-- C6: for a movie document's person list, every produced link row
carries a display order equal to the 1-based position of its source
person reference (positions of references later skipped are still
counted, and the row's character text is derived from the reference at
exactly that position); orders are strictly increasing (document order);
and the rows are pairwise distinct on the (person, role, character-text)
triple — later duplicates are silently dropped, not an error. -/
theorem movie_people_order_dedup (o : Nat → Bool) (s s' : PgState) (movie_id : Int)
    (persons : List DValue) (rows : List MPRow)
    (h : movie_people_rows movie_id persons 0 [] [] o s = .ok rows s') :
    (∀ r ∈ rows, r.movie_id = movie_id ∧ 1 ≤ r.order_index ∧
      r.order_index ≤ persons.length ∧
      ∃ hlt : r.order_index - 1 < persons.length,
        r.character_name = truncate_text (normalize_text
          (dget (persons.get ⟨r.order_index - 1, hlt⟩) "description")) 200) ∧
    List.Pairwise (fun a b => a.order_index < b.order_index) rows ∧
    List.Pairwise (fun a b =>
      ¬(a.person_id = b.person_id ∧ a.role_id = b.role_id ∧
        a.character_name = b.character_name)) rows := by
  have hgo := movie_people_rows_go_spec movie_id persons [] [] [] o s s' rows
    (by simpa using h) (by simp) (by simp) (by simp) (by simp)
  refine ⟨?_, hgo.2.1, ?_⟩
  · intro r hr
    have := hgo.1 r hr
    obtain ⟨h1, h2, h3, hlt, hc⟩ := this
    exact ⟨h1, h2, by simpa using h3, by simpa using hlt, by simpa using hc⟩
  · refine hgo.2.2.imp ?_
    intro a b hne ⟨e1, e2, e3⟩
    exact hne (by simp [mpTriple, e1, e2, e3])

def c6P1 : DValue := .dict [("name", .str "P1"), ("enProfession", .str "actor"),
  ("description", .str "Hero")]

def c6Skip : DValue := .dict [("photo", .str "x")]

/-- A person list with a nameless (skipped) reference between two copies
of the same reference. -/
def c6Persons : List DValue := [c6P1, c6Skip, c6P1]

def c6Out : DocRes (List MPRow) :=
  movie_people_rows 1 c6Persons 0 [] [] noFailO initState

def c6Rows : List MPRow :=
  match c6Out with
  | .ok rows _ => rows
  | .err _ => []

def c6State2 : PgState :=
  match c6Out with
  | .ok _ s => s
  | .err s => s

theorem movie_people_order_dedup_witness :
    (∀ r ∈ c6Rows, r.movie_id = 1 ∧ 1 ≤ r.order_index ∧
      r.order_index ≤ c6Persons.length ∧
      ∃ hlt : r.order_index - 1 < c6Persons.length,
        r.character_name = truncate_text (normalize_text
          (dget (c6Persons.get ⟨r.order_index - 1, hlt⟩) "description")) 200) ∧
    List.Pairwise (fun a b => a.order_index < b.order_index) c6Rows ∧
    List.Pairwise (fun a b =>
      ¬(a.person_id = b.person_id ∧ a.role_id = b.role_id ∧
        a.character_name = b.character_name)) c6Rows ∧
    c6Rows.map (fun r => r.order_index) = [1] := by
  have hrun : movie_people_rows 1 c6Persons 0 [] [] noFailO initState =
      .ok c6Rows c6State2 := by decide
  have h := movie_people_order_dedup noFailO initState c6State2 1 c6Persons c6Rows hrun
  exact ⟨h.1, h.2.1, h.2.2, by decide⟩

/-! ### C1 — per-document failure isolation in `process_movie_batch` -/

theorem process_movie_batch_append (o : Nat → Bool) (xs ys : List DValue) :
    ∀ s : PgState,
      process_movie_batch o (xs ++ ys) s =
        ((process_movie_batch o xs s).1 +
            (process_movie_batch o ys (process_movie_batch o xs s).2.2).1,
          (process_movie_batch o xs s).2.1 +
            (process_movie_batch o ys (process_movie_batch o xs s).2.2).2.1,
          (process_movie_batch o ys (process_movie_batch o xs s).2.2).2.2) := by
  induction xs with
  | nil =>
      intro s
      simp [process_movie_batch]
  | cons d xs ih =>
      intro s
      simp only [List.cons_append, process_movie_batch]
      rw [show xs.append ys = xs ++ ys from rfl]
      cases hw : movieWriteSeq d o s with
      | ok b s1 =>
          cases b with
          | true =>
              simp only [hw]
              rw [ih s1]
              simp only [Prod.mk.injEq, true_and, and_true]
              omega
          | false =>
              simp only [hw]
              rw [ih s1]
              simp only [Prod.mk.injEq, true_and, and_true]
              omega
      | err s1 =>
          simp only [hw]
          rw [ih { s1 with db := s.db }]
          simp only [Prod.mk.injEq, true_and, and_true]
          omega

theorem process_movie_batch_count (o : Nat → Bool) (docs : List DValue) :
    ∀ s : PgState,
      (process_movie_batch o docs s).1 + (process_movie_batch o docs s).2.1 =
        docs.length := by
  induction docs with
  | nil => intro s; simp [process_movie_batch]
  | cons d ds ih =>
      intro s
      simp only [process_movie_batch, List.length_cons]
      cases hw : movieWriteSeq d o s with
      | ok b s1 =>
          cases b with
          | true => simp only [hw]; have := ih s1; omega
          | false => simp only [hw]; have := ih s1; omega
      | err s1 => simp only [hw]; have := ih { s1 with db := s.db }; omega

/-- C1: per-document failure isolation in `process_movie_batch`. Every
document is accounted as inserted or skipped (inserted + skipped =
batch length). A document whose write sequence raises is counted as one
skip, and only its own writes are discarded: the rest of the batch
continues from the failing document's post-error state with the store
rolled back to the savepoint taken before that document — so the writes
of every correctly-formed document before it are still present, and the
documents after it are processed (and their writes kept) exactly as
usual. A document whose write sequence succeeds keeps its writes: the
rest of the batch continues from its successor state unchanged. -/
theorem movie_batch_failure_isolation :
    (∀ (o : Nat → Bool) (docs : List DValue) (s : PgState),
      (process_movie_batch o docs s).1 + (process_movie_batch o docs s).2.1 =
        docs.length) ∧
    (∀ (o : Nat → Bool) (s s2 : PgState) (pre post : List DValue) (bad : DValue),
      movieWriteSeq bad o (process_movie_batch o pre s).2.2 = .err s2 →
      process_movie_batch o (pre ++ bad :: post) s =
        ((process_movie_batch o pre s).1 +
            (process_movie_batch o post
              { s2 with db := (process_movie_batch o pre s).2.2.db }).1,
          (process_movie_batch o pre s).2.1 + 1 +
            (process_movie_batch o post
              { s2 with db := (process_movie_batch o pre s).2.2.db }).2.1,
          (process_movie_batch o post
            { s2 with db := (process_movie_batch o pre s).2.2.db }).2.2)) ∧
    (∀ (o : Nat → Bool) (s s2 : PgState) (pre post : List DValue) (good : DValue),
      movieWriteSeq good o (process_movie_batch o pre s).2.2 = .ok true s2 →
      process_movie_batch o (pre ++ good :: post) s =
        ((process_movie_batch o pre s).1 + 1 + (process_movie_batch o post s2).1,
          (process_movie_batch o pre s).2.1 + (process_movie_batch o post s2).2.1,
          (process_movie_batch o post s2).2.2)) := by
  refine ⟨process_movie_batch_count, ?_, ?_⟩
  · intro o s s2 pre post bad hw
    rw [process_movie_batch_append]
    simp only [process_movie_batch, hw]
    simp only [Prod.mk.injEq, true_and, and_true]
    omega
  · intro o s s2 pre post good hw
    rw [process_movie_batch_append]
    simp only [process_movie_batch, hw]
    simp only [Prod.mk.injEq, true_and, and_true]
    omega

def c1Good1 : DValue := .dict [("name", .str "Alpha")]

def c1Bad : DValue := .dict [("name", .str "Broken")]

def c1Good2 : DValue := .dict [("name", .str "Beta")]

/-- An oracle that makes exactly the second document's first database
statement raise. -/
def c1O : Nat → Bool := fun n => n == 1

def c1Pre : List DValue := [c1Good1]

def c1S1 : PgState := (process_movie_batch c1O c1Pre initState).2.2

def c1S2 : PgState :=
  match movieWriteSeq c1Bad c1O c1S1 with
  | .err s => s
  | .ok _ s => s

theorem movie_batch_failure_isolation_witness :
    process_movie_batch c1O (c1Pre ++ c1Bad :: [c1Good2]) initState =
      ((process_movie_batch c1O c1Pre initState).1 +
          (process_movie_batch c1O [c1Good2]
            { c1S2 with db := (process_movie_batch c1O c1Pre initState).2.2.db }).1,
        (process_movie_batch c1O c1Pre initState).2.1 + 1 +
          (process_movie_batch c1O [c1Good2]
            { c1S2 with db := (process_movie_batch c1O c1Pre initState).2.2.db }).2.1,
        (process_movie_batch c1O [c1Good2]
          { c1S2 with db := (process_movie_batch c1O c1Pre initState).2.2.db }).2.2) ∧
    (process_movie_batch c1O [c1Good1, c1Bad, c1Good2] initState).1 = 2 ∧
    (process_movie_batch c1O [c1Good1, c1Bad, c1Good2] initState).2.1 = 1 ∧
    (process_movie_batch c1O [c1Good1, c1Bad, c1Good2] initState).2.2.db.movies.map
      (fun r => r.title) = ["Alpha", "Beta"] := by
  have hw : movieWriteSeq c1Bad c1O (process_movie_batch c1O c1Pre initState).2.2 =
      .err c1S2 := by decide
  refine ⟨?_, by decide, by decide, by decide⟩
  exact movie_batch_failure_isolation.2.1 c1O initState c1S2 c1Pre [c1Good2] c1Bad hw
